import Mathlib

/-!
Verification of the context-assembly and caching core of the `my-companion` v2
assistant (files `core/context_scorer.py`, `core/progressive_context.py`,
`core/context_validator.py`, `core/response_cache.py`, `core/vector_db.py`).

The Python code is shallowly embedded as executable Lean definitions:

* Python strings are `List Char` (`Str`); `str.lower`, `str.strip`,
  `str.replace`, `str.split`, tokenization by the regex `\b\w+\b`, and
  substring tests (`in`) are implemented character by character on ASCII,
  matching CPython behaviour on the ASCII inputs the program manipulates.
* Python `float` score arithmetic is modelled exactly by unreduced fractions
  `Frac` (an integer numerator and positive integer denominator); all the
  constants involved are small decimals, so exact arithmetic agrees with the
  intended real-number semantics of the code.
* Python `set` objects are modelled as deduplicated lists; the code only ever
  uses sets through membership, intersection cardinality and size, so the
  iteration order never matters.
* `time.time()` timestamps are modelled as integers (seconds); the cache TTL
  arithmetic only compares differences of timestamps with the TTL.
* The md5-based cache key is a deterministic function of the string
  `f"{query_type}:{normalized_question}:{context_summary}"`; the model uses
  that string itself as the key, so equality of keys in the model coincides
  with equality of the hashed inputs (hash collisions are not modelled).
-/

/-! ## String utilities (models of the Python string operations used) -/

abbrev Str := List Char

def chars (s : String) : Str := s.data

/-- Model of Python `\w` on ASCII input: letters, digits and underscore. -/
def isWordChar (c : Char) : Bool := c.isAlphanum || c == '_'

/-- Model of Python whitespace (as used by `str.strip` / `str.split`). -/
def isSpaceChar (c : Char) : Bool := c == ' ' || c == '\t' || c == '\n' || c == '\r'

/-- Model of `str.lower` on ASCII input. -/
def lowerStr (s : Str) : Str := s.map Char.toLower

/-- Model of the Python substring test `pat in s`. -/
def hasSubstr (pat s : Str) : Bool := s.tails.any (fun t => pat.isPrefixOf t)

/-- Maximal runs of characters satisfying `p`, in order.  Fuel-driven; the
fuel is the length of the string, and every step consumes at least one
character, so the fuel never runs out in `runsBy`. -/
def runsByFuel (p : Char → Bool) : Nat → Str → List Str
  | 0, _ => []
  | fuel + 1, s =>
    match s with
    | [] => []
    | c :: rest =>
      if p c then (s.takeWhile p) :: runsByFuel p fuel (s.dropWhile p)
      else runsByFuel p fuel rest

def runsBy (p : Char → Bool) (s : Str) : List Str := runsByFuel p s.length s

/-- Model of `re.findall(r'\b\w+\b', s)`: the maximal word-character runs. -/
def tokenize (s : Str) : List Str := runsBy isWordChar s

/-- Model of building a Python `set` of strings: deduplicated list.  Only
membership and cardinality of the result are ever used. -/
def strSet (l : List Str) : List Str := l.dedup

/-- The word set of a string, `set(re.findall(r'\b\w+\b', s))`. -/
def wordSet (s : Str) : List Str := strSet (tokenize s)

/-- `len(a & b)` for string sets: count of elements of `a` also in `b`. -/
def interCount (a b : List Str) : Nat := (a.filter (fun x => decide (x ∈ b))).length

/-- Model of `str.strip()`. -/
def pyStrip (s : Str) : Str :=
  ((s.dropWhile isSpaceChar).reverse.dropWhile isSpaceChar).reverse

/-- Model of `str.replace(old, new)` (all occurrences, left to right).
Fuel-driven; each step consumes at least one character of the input when the
pattern is non-empty, and the empty pattern (never used by the program) leaves
the string unchanged. -/
def replaceAllFuel (pat rep : Str) : Nat → Str → Str
  | 0, s => s
  | fuel + 1, s =>
    match s with
    | [] => []
    | c :: rest =>
      if pat.isPrefixOf s && !pat.isEmpty then
        rep ++ replaceAllFuel pat rep fuel (s.drop pat.length)
      else
        c :: replaceAllFuel pat rep fuel rest

def replaceAll (pat rep s : Str) : Str := replaceAllFuel pat rep s.length s

/-- Model of `' '.join(s.split())`: collapse whitespace runs. -/
def collapseWs (s : Str) : Str :=
  List.intercalate (chars " ") (runsBy (fun c => !isSpaceChar c) s)

/-- Model of `s.split(sep, 1)` when `sep` occurs: the parts before and after
the first occurrence.  Fuel-driven scan. -/
def splitOnceFuel (sep : Str) : Nat → Str → Option (Str × Str)
  | 0, _ => none
  | fuel + 1, s =>
    match s with
    | [] => none
    | c :: rest =>
      if sep.isPrefixOf s && !sep.isEmpty then some ([], s.drop sep.length)
      else (splitOnceFuel sep fuel rest).map (fun pr => (c :: pr.1, pr.2))

def splitOnce (sep s : Str) : Option (Str × Str) := splitOnceFuel sep s.length s

def joinSep (sep : Str) (parts : List Str) : Str := List.intercalate sep parts

/-! ## Exact fraction arithmetic (model of the Python float score arithmetic)

`Frac` is an unreduced fraction.  All fractions produced by the embedded code
have a positive denominator (`Frac.Pos`); the order is the usual one on such
fractions, by cross multiplication. -/

structure Frac where
  num : Int
  den : Int
deriving DecidableEq, Repr

def Frac.Pos (x : Frac) : Prop := 0 < x.den

instance (x : Frac) : Decidable x.Pos := by unfold Frac.Pos; infer_instance

def qc (n d : Int) : Frac := ⟨n, d⟩

def natQ (n : Nat) : Frac := ⟨n, 1⟩

def qadd (x y : Frac) : Frac := ⟨x.num * y.den + y.num * x.den, x.den * y.den⟩

def qmul (x y : Frac) : Frac := ⟨x.num * y.num, x.den * y.den⟩

/-- Division, defined (as in the embedded code's guarded uses) only for a
positive divisor; any other divisor yields 0, a case the code never reaches
because it guards every division with a positivity test. -/
def qdiv (x y : Frac) : Frac :=
  if 0 < y.num then ⟨x.num * y.den, x.den * y.num⟩ else ⟨0, 1⟩

def Frac.le (x y : Frac) : Prop := x.num * y.den ≤ y.num * x.den

def Frac.lt (x y : Frac) : Prop := x.num * y.den < y.num * x.den

instance (x y : Frac) : Decidable (x.le y) := by unfold Frac.le; infer_instance

instance (x y : Frac) : Decidable (x.lt y) := by unfold Frac.lt; infer_instance

def qmin (x y : Frac) : Frac := if x.le y then x else y

def qsum (l : List Frac) : Frac := l.foldl qadd ⟨0, 1⟩

/-- `0 ≤ x` with a positive denominator: the well-formedness every score in
the pipeline enjoys. -/
def Frac.Nonneg (x : Frac) : Prop := 0 ≤ x.num ∧ 0 < x.den

instance (x : Frac) : Decidable x.Nonneg := by unfold Frac.Nonneg; infer_instance

theorem Frac.Nonneg.pos {x : Frac} (h : x.Nonneg) : x.Pos := h.2

theorem qadd_nonneg {x y : Frac} (hx : x.Nonneg) (hy : y.Nonneg) : (qadd x y).Nonneg := by
  obtain ⟨hx1, hx2⟩ := hx
  obtain ⟨hy1, hy2⟩ := hy
  constructor
  · have h1 : 0 ≤ x.num * y.den := mul_nonneg hx1 (le_of_lt hy2)
    have h2 : 0 ≤ y.num * x.den := mul_nonneg hy1 (le_of_lt hx2)
    simpa [qadd] using add_nonneg h1 h2
  · simpa [qadd] using mul_pos hx2 hy2

theorem qmul_nonneg {x y : Frac} (hx : x.Nonneg) (hy : y.Nonneg) : (qmul x y).Nonneg := by
  exact ⟨mul_nonneg hx.1 hy.1, mul_pos hx.2 hy.2⟩

theorem qdiv_nonneg {x y : Frac} (hx : x.Nonneg) (hy : 0 < y.den) : (qdiv x y).Nonneg := by
  unfold qdiv
  by_cases h : 0 < y.num
  · simp only [h, if_true]
    exact ⟨mul_nonneg hx.1 (le_of_lt hy), mul_pos hx.2 h⟩
  · simp only [h, if_false]
    exact ⟨le_refl 0, one_pos⟩

theorem qmin_nonneg {x y : Frac} (hx : x.Nonneg) (hy : y.Nonneg) : (qmin x y).Nonneg := by
  unfold qmin
  by_cases h : x.le y <;> simp [h, hx, hy]

theorem qle_refl {x : Frac} : x.le x := Int.le_refl _

theorem qmin_le_right {x y : Frac} : (qmin x y).le y := by
  unfold qmin
  by_cases h : x.le y
  · simpa [h] using h
  · simpa [h] using qle_refl

theorem qle_total {x y : Frac} (hx : x.Pos) (hy : y.Pos) : x.le y ∨ y.le x := by
  unfold Frac.le
  rcases le_total (x.num * y.den) (y.num * x.den) with h | h
  · exact Or.inl h
  · exact Or.inr h

theorem qle_trans {x y z : Frac} (hx : x.Pos) (hy : y.Pos) (hz : z.Pos)
    (h1 : x.le y) (h2 : y.le z) : x.le z := by
  unfold Frac.le at *
  unfold Frac.Pos at *
  nlinarith [mul_le_mul_of_nonneg_right h1 (le_of_lt hz),
    mul_le_mul_of_nonneg_right h2 (le_of_lt hx)]

theorem qadd_le_qadd_left {x y c : Frac} (hx : x.Pos) (hy : y.Pos) (hc : c.Pos)
    (h : x.le y) : (qadd c x).le (qadd c y) := by
  unfold Frac.le Frac.Pos qadd at *
  simp only
  nlinarith [mul_le_mul_of_nonneg_right h (le_of_lt hc), mul_pos hc hx, mul_pos hc hy]

theorem qmul_le_qmul_left {x y c : Frac} (hx : x.Pos) (hy : y.Pos) (hc : c.Nonneg)
    (h : x.le y) : (qmul c x).le (qmul c y) := by
  unfold Frac.le Frac.Pos Frac.Nonneg qmul at *
  simp only
  nlinarith [mul_le_mul_of_nonneg_right h (mul_nonneg hc.1 (le_of_lt hc.2))]

theorem qmin_le_qmin_left {x y c : Frac} (hx : x.Pos) (hy : y.Pos) (hc : c.Pos)
    (h : x.le y) : (qmin x c).le (qmin y c) := by
  unfold qmin
  have htot : x.le c ∨ c.le x := qle_total hx hc
  by_cases h1 : x.le c <;> by_cases h2 : y.le c <;> simp only [h1, h2, if_true, if_false]
  all_goals first
    | exact h
    | exact h1
    | exact qle_refl
    | exact qle_trans hc hx hy (htot.resolve_left h1) h

theorem qdiv_le_qdiv_of_le {m m' n : Frac} (hm : m.Nonneg) (hm' : m'.Nonneg)
    (hn : n.Nonneg) (h : m.le m') : (qdiv m n).le (qdiv m' n) := by
  unfold qdiv
  by_cases hpos : 0 < n.num
  · simp only [hpos, if_true]
    unfold Frac.le at *
    simp only
    nlinarith [mul_le_mul_of_nonneg_right h (mul_nonneg (le_of_lt hn.2) (le_of_lt hpos)),
      hm.2, hm'.2]
  · simp only [hpos, if_false]
    exact Int.le_refl _

/-! ## Context Scorer (`core/context_scorer.py`) -/

/-- A scored context fragment (`ContextItem` dataclass).  The metadata map is
represented by the fields the rest of the pipeline actually reads
(`category` and `skill` for skill items); scores are exact fractions. -/
structure ContextItem where
  content : Str
  source : Str
  item_type : Str
  metaCategory : Str
  metaSkill : Str
  relevance_score : Frac
  technical_score : Frac
  project_score : Frac
deriving DecidableEq, Repr

instance : Inhabited ContextItem :=
  ⟨⟨[], [], [], [], [], ⟨0, 1⟩, ⟨0, 1⟩, ⟨0, 1⟩⟩⟩

/-- `self.tech_relationships` (static table, keys and value lists in source
order). -/
def tech_relationships : List (Str × List Str) :=
  [ (chars "angular", [chars "typescript", chars "rxjs", chars "ngrx", chars "material", chars "primeng", chars "nodejs"]),
    (chars "react", [chars "javascript", chars "typescript", chars "jsx", chars "redux", chars "nodejs"]),
    (chars "vue", [chars "javascript", chars "typescript", chars "vuex", chars "nodejs"]),
    (chars "typescript", [chars "javascript", chars "angular", chars "react", chars "nodejs"]),
    (chars "javascript", [chars "html", chars "css", chars "nodejs", chars "react", chars "vue"]),
    (chars ".net", [chars "c#", chars "asp.net", chars "entity framework", chars "sql server", chars "azure"]),
    (chars ".net core", [chars "c#", chars "asp.net core", chars "entity framework", chars "sql server", chars "azure"]),
    (chars "c#", [chars ".net", chars ".net core", chars "asp.net", chars "entity framework", chars "sql server"]),
    (chars "nodejs", [chars "javascript", chars "typescript", chars "express", chars "mongodb", chars "npm"]),
    (chars "python", [chars "django", chars "flask", chars "fastapi", chars "pandas", chars "postgresql"]),
    (chars "sql server", [chars "c#", chars ".net", chars "azure", chars "ssms", chars "t-sql"]),
    (chars "mongodb", [chars "nodejs", chars "javascript", chars "express", chars "mongoose"]),
    (chars "postgresql", [chars "python", chars "django", chars "sql"]),
    (chars "cosmosdb", [chars "azure", chars ".net", chars "nosql", chars "mongodb"]),
    (chars "azure", [chars ".net", chars "c#", chars "sql server", chars "cosmosdb", chars "functions", chars "app service"]),
    (chars "aws", [chars "lambda", chars "ec2", chars "s3", chars "rds", chars "dynamodb"]),
    (chars "docker", [chars "containerization", chars "kubernetes", chars "devops", chars "ci/cd"]),
    (chars "microservices", [chars "api", chars "rest", chars "docker", chars "kubernetes", chars "cloud"]),
    (chars "rest api", [chars "http", chars "json", chars "swagger", chars "postman", chars "api"]),
    (chars "mvc", [chars "model", chars "view", chars "controller", chars "asp.net", chars "architecture"]) ]

/-- `self.project_indicators`. -/
def project_indicators : List Str :=
  [chars "domain", chars "role", chars "responsibilities", chars "technologies", chars "skills",
   chars "built", chars "developed", chars "implemented", chars "designed", chars "created",
   chars "led", chars "managed", chars "collaborated", chars "delivered", chars "deployed"]

/-- `self.technical_indicators`. -/
def technical_indicators : List Str :=
  [chars "programming", chars "language", chars "framework", chars "library", chars "tool",
   chars "database", chars "cloud", chars "platform", chars "api", chars "service",
   chars "architecture", chars "design", chars "pattern", chars "methodology"]

/-- `self.experience_indicators` of the scorer. -/
def experience_indicator_words : List Str :=
  [chars "years", chars "experience", chars "expert", chars "proficient", chars "skilled",
   chars "beginner", chars "intermediate", chars "advanced", chars "senior", chars "lead"]

/-- Matches of the regex `\b\w+SFX\b` for a word-character suffix `SFX` such
as `sql` or `db`: exactly the word tokens that end with the suffix and are
strictly longer than it. -/
def suffixTokenMatches (sfx : Str) (text : Str) : List Str :=
  (tokenize text).filter (fun t => sfx.isSuffixOf t && decide (sfx.length < t.length))

/-- True when the next character position is a word boundary (end of string or
a non-word character). -/
def boundaryAt : Str → Bool
  | [] => true
  | c :: _ => !isWordChar c

/-- Matches of the regex `\b\w+\.SFX\b` for a word-character suffix `SFX`
(`js` or `net`): scans for a word run that starts at a word boundary and is
immediately followed by a dot, the suffix, and a word boundary; like
`re.findall`, matches do not overlap and are reported left to right. -/
def dotSuffixFuel (sfx : Str) : Nat → Str → List Str
  | 0, _ => []
  | fuel + 1, s =>
    match s with
    | [] => []
    | c :: rest =>
      if isWordChar c then
        let run := s.takeWhile isWordChar
        let after := s.drop run.length
        if ('.' :: sfx).isPrefixOf after && boundaryAt (after.drop (sfx.length + 1)) then
          (run ++ '.' :: sfx) :: dotSuffixFuel sfx fuel (after.drop (sfx.length + 1))
        else
          dotSuffixFuel sfx fuel after
      else
        dotSuffixFuel sfx fuel rest

def dotSuffixMatches (sfx : Str) (text : Str) : List Str := dotSuffixFuel sfx text.length text

/-- `_extract_technical_terms(text)`: the set of known technology names that
occur in the (lowercase) text, plus matches of the four technical regex
patterns, all lowercased. -/
def extract_technical_terms (text : Str) : List Str :=
  let fromTable := (tech_relationships.map (·.1)).filter (fun tech => hasSubstr tech text)
  let fromPatterns :=
    (dotSuffixMatches (chars "js") text ++ dotSuffixMatches (chars "net") text ++
     suffixTokenMatches (chars "sql") text ++ suffixTokenMatches (chars "db") text).map lowerStr
  strSet (fromTable ++ fromPatterns)

/-- `_calculate_relevance_score(content, query_words, tech_terms)`. -/
def calculate_relevance_score (content : Str) (query_words tech_terms : List Str) : Frac :=
  let content_lower := lowerStr content
  let content_words := wordSet content_lower
  let word_matches := interCount query_words content_words
  let total_query_words := query_words.length
  let word_score := if 0 < total_query_words then qdiv (natQ word_matches) (natQ total_query_words) else ⟨0, 1⟩
  let tech_matches := interCount tech_terms content_words
  let total_tech_terms := tech_terms.length
  let tech_score := if 0 < total_tech_terms then qdiv (natQ tech_matches) (natQ total_tech_terms) else ⟨0, 1⟩
  let qualityBoost :=
    qadd (qadd (qadd (if 50 < content.length then qc 1 10 else ⟨0, 1⟩)
      (if technical_indicators.any (fun ind => hasSubstr ind content_lower) then qc 2 10 else ⟨0, 1⟩))
      (if project_indicators.any (fun ind => hasSubstr ind content_lower) then qc 15 100 else ⟨0, 1⟩))
      (if experience_indicator_words.any (fun ind => hasSubstr ind content_lower) then qc 1 10 else ⟨0, 1⟩)
  let final_score := qadd (qadd (qadd (qmul word_score (qc 4 10)) (qmul tech_score (qc 5 10))) qualityBoost) (qc 1 10)
  qmin final_score (qc 1 1)

/-- `_calculate_technical_score(content, tech_terms)`. -/
def calculate_technical_score (content : Str) (tech_terms : List Str) : Frac :=
  let content_lower := lowerStr content
  let tech_count := (tech_terms.filter (fun term => hasSubstr term content_lower)).length
  let tech_indicators_count := (technical_indicators.filter (fun ind => hasSubstr ind content_lower)).length
  qmin (qadd (qmul (natQ tech_count) (qc 3 10)) (qmul (natQ tech_indicators_count) (qc 2 10))) (qc 1 1)

/-- `_calculate_related_tech_boost(skill, tech_terms)`. -/
def calculate_related_tech_boost (skill : Str) (tech_terms : List Str) : Frac :=
  match tech_relationships.find? (fun p => p.1 = skill) with
  | none => ⟨0, 1⟩
  | some p => qmul (natQ ((p.2.filter (fun tech => decide (tech ∈ tech_terms))).length)) (qc 1 10)

/-- The profile snapshot consumed by the scorer (`data` dict).  String-valued
profile fields, skills by category, projects with both the v1 and v2 field
names, and activities. -/
structure ProjectData where
  domain : Str
  name : Str
  description : Str
  role : Str
  technologies : List Str
  related_skills : List Str
deriving DecidableEq, Repr

structure ActivityData where
  name : Str
  title : Str
  description : Str
deriving DecidableEq, Repr

structure ProfileData where
  user_profile : List (Str × Str)
  technical_skills : List (Str × List Str)
  projects : List ProjectData
  other_activities : List ActivityData
deriving DecidableEq, Repr

/-- `_score_profile_items`: one item per non-empty string field, skipping
`attachments`/`urls`; `profile_summary` scores are boosted 1.5×. -/
def score_profile_items (profile : List (Str × Str)) (query_words tech_terms : List Str) : List ContextItem :=
  profile.filterMap (fun kv =>
    if kv.1 = chars "attachments" || kv.1 = chars "urls" || kv.2.isEmpty then none
    else
      let content := kv.1 ++ chars ": " ++ kv.2
      let score0 := calculate_relevance_score content query_words tech_terms
      let score := if kv.1 = chars "profile_summary" then qmul score0 (qc 15 10) else score0
      some { content := content, source := chars "profile", item_type := chars "profile_info",
             metaCategory := [], metaSkill := [],
             relevance_score := score,
             technical_score := calculate_technical_score content tech_terms,
             project_score := ⟨0, 1⟩ })

/-- `_score_skill_items`: one item per skill, with an exact-technical-match
2× boost and a related-technology multiplicative boost. -/
def score_skill_items (skills : List (Str × List Str)) (query_words tech_terms : List Str) : List ContextItem :=
  skills.flatMap (fun cat =>
    cat.2.map (fun skill =>
      let content := chars "Technical Skill (" ++ cat.1 ++ chars "): " ++ skill
      let base0 := calculate_relevance_score content query_words tech_terms
      let skill_lower := lowerStr skill
      let base1 := if skill_lower ∈ tech_terms then qmul base0 (qc 2 1) else base0
      let base2 := qmul base1 (qadd (qc 1 1) (calculate_related_tech_boost skill_lower tech_terms))
      { content := content, source := chars "skills", item_type := chars "technical_skill",
        metaCategory := cat.1, metaSkill := skill,
        relevance_score := base2,
        technical_score := calculate_technical_score content tech_terms,
        project_score := ⟨0, 1⟩ }))

/-- The per-technology boost loop of `_score_project_items` (in list order:
`*1.8` on an exact technical-term match, else `*1.5` on a query-word
match). -/
def projectTechBoost (technologies : List Str) (query_words tech_terms : List Str) (base : Frac) : Frac :=
  technologies.foldl (fun s tech =>
    if lowerStr tech ∈ tech_terms then qmul s (qc 18 10)
    else if lowerStr tech ∈ query_words then qmul s (qc 15 10)
    else s) base

/-- `_score_project_items`. -/
def score_project_items (projects : List ProjectData) (query_words tech_terms : List Str) : List ContextItem :=
  projects.map (fun project =>
    let project_name := if project.domain.isEmpty then project.name else project.domain
    let description := project.description
    let technologies := if project.technologies.isEmpty then project.related_skills else project.technologies
    let role := project.role
    let content_parts :=
      (if project_name.isEmpty then [] else [chars "Project: " ++ project_name]) ++
      (if role.isEmpty then [] else [chars "Role: " ++ role]) ++
      (if description.isEmpty then [] else [chars "Description: " ++ description]) ++
      (if technologies.isEmpty then [] else [chars "Technologies: " ++ joinSep (chars ", ") technologies])
    let content := joinSep (chars " | ") content_parts
    let base0 := calculate_relevance_score content query_words tech_terms
    let project_keywords := [chars "project", chars "built", chars "developed", chars "worked",
      chars "experience", chars "portfolio"]
    let base1 := if project_keywords.any (fun w => decide (w ∈ query_words)) then qmul base0 (qc 25 10) else base0
    let base2 := projectTechBoost technologies query_words tech_terms base1
    { content := content, source := chars "projects", item_type := chars "project",
      metaCategory := [], metaSkill := [],
      relevance_score := base2,
      technical_score := calculate_technical_score content tech_terms,
      project_score := qmul base2 (qc 8 10) })

/-- `_score_activity_items`. -/
def score_activity_items (activities : List ActivityData) (query_words tech_terms : List Str) : List ContextItem :=
  activities.map (fun activity =>
    let name := if activity.name.isEmpty then activity.title else activity.name
    let content :=
      if !name.isEmpty && !activity.description.isEmpty then
        chars "Activity: " ++ name ++ chars " - " ++ activity.description
      else
        chars "Activity: " ++ (if name.isEmpty then activity.description else name)
    { content := content, source := chars "activities", item_type := chars "activity",
      metaCategory := [], metaSkill := [],
      relevance_score := calculate_relevance_score content query_words tech_terms,
      technical_score := calculate_technical_score content tech_terms,
      project_score := qc 2 10 })

/-- Stable insertion into a list sorted by the relation "`keep y x` means `y`
stays in front of `x`"; mirrors the stability of Python's `list.sort` and of
`sorted`. -/
def insertStable {A : Type} (keep : A → A → Bool) (x : A) : List A → List A
  | [] => [x]
  | y :: ys => if keep y x then y :: insertStable keep x ys else x :: y :: ys

def sortStable {A : Type} (keep : A → A → Bool) (l : List A) : List A :=
  l.foldl (fun acc x => insertStable keep x acc) []

/-- The comparison of `context_items.sort(key=lambda x: x.relevance_score,
reverse=True)`: an already placed item stays in front of a newly inserted one
when its relevance is at least as large (descending, stable). -/
def keepByRelevanceDesc (y x : ContextItem) : Bool := decide (x.relevance_score.le y.relevance_score)

/-- `score_context_items(data, query)`. -/
def score_context_items (data : ProfileData) (query : Str) : List ContextItem :=
  let query_lower := lowerStr query
  let query_words := wordSet query_lower
  let query_tech_terms := extract_technical_terms query_lower
  let items :=
    (if data.user_profile.isEmpty then [] else score_profile_items data.user_profile query_words query_tech_terms) ++
    (if data.technical_skills.isEmpty then [] else score_skill_items data.technical_skills query_words query_tech_terms) ++
    (if data.projects.isEmpty then [] else score_project_items data.projects query_words query_tech_terms) ++
    (if data.other_activities.isEmpty then [] else score_activity_items data.other_activities query_words query_tech_terms)
  sortStable keepByRelevanceDesc items

/-- `validate_critical_context(context_items, query)` result. -/
structure CriticalContextResult where
  has_technical_context : Bool
  has_project_context : Bool
  has_experience_context : Bool
  missing_critical_info : List Str
  recommendations : List Str
deriving DecidableEq, Repr

/-- `validate_critical_context(context_items, query)`. -/
def validate_critical_context (context_items : List ContextItem) (query : Str) : CriticalContextResult :=
  let query_lower := lowerStr query
  let hasTech := context_items.any (fun item => decide ((qc 3 10).lt item.technical_score))
  let hasProj := context_items.any (fun item => decide ((qc 3 10).lt item.project_score))
  let hasExp := context_items.any (fun item =>
    hasSubstr (chars "experience") (lowerStr item.content) || hasSubstr (chars "years") (lowerStr item.content))
  let missing1 := if hasSubstr (chars "project") query_lower && !hasProj then [chars "project_details"] else []
  let recs1 := if hasSubstr (chars "project") query_lower && !hasProj then [chars "Include more project-specific context"] else []
  let techInQuery := (tech_relationships.map (·.1)).any (fun tech => hasSubstr tech query_lower)
  let missing2 := if techInQuery && !hasTech then [chars "technical_details"] else []
  let recs2 := if techInQuery && !hasTech then [chars "Include more technical skill context"] else []
  { has_technical_context := hasTech
    has_project_context := hasProj
    has_experience_context := hasExp
    missing_critical_info := missing1 ++ missing2
    recommendations := recs1 ++ recs2 }

/-! ## Progressive Context Builder (`core/progressive_context.py`) -/

/-- `ContextLevel` dataclass. -/
structure ContextLevel where
  name : Str
  max_items : Nat
  min_score_threshold : Frac
  include_technical : Bool := true
  include_projects : Bool := true
  include_profile : Bool := true
  include_activities : Bool := false
deriving DecidableEq, Repr

def minimalLevel : ContextLevel :=
  { name := chars "minimal", max_items := 3, min_score_threshold := qc 6 10, include_activities := false }

def standardLevel : ContextLevel :=
  { name := chars "standard", max_items := 6, min_score_threshold := qc 4 10, include_activities := true }

def comprehensiveLevel : ContextLevel :=
  { name := chars "comprehensive", max_items := 10, min_score_threshold := qc 2 10, include_activities := true }

def technicalDeepLevel : ContextLevel :=
  { name := chars "technical_deep", max_items := 8, min_score_threshold := qc 3 10, include_activities := false }

def projectFocusedLevel : ContextLevel :=
  { name := chars "project_focused", max_items := 7, min_score_threshold := qc 3 10, include_activities := false }

/-- `self.context_levels.get(complexity, self.context_levels['standard'])`. -/
def levelFor (complexity : Str) : ContextLevel :=
  if complexity = chars "minimal" then minimalLevel
  else if complexity = chars "standard" then standardLevel
  else if complexity = chars "comprehensive" then comprehensiveLevel
  else if complexity = chars "technical_deep" then technicalDeepLevel
  else if complexity = chars "project_focused" then projectFocusedLevel
  else standardLevel

/-- The requirements dict produced by `_analyze_query_requirements`. -/
structure QueryRequirements where
  complexity_level : Str
  needs_technical_detail : Bool
  needs_project_detail : Bool
  needs_experience_detail : Bool
  specific_technologies : List Str
  query_type : Str
  expected_response_length : Str
deriving DecidableEq, Repr

def complex_indicators : List Str :=
  [chars "analyze", chars "compare", chars "evaluate", chars "assessment", chars "detailed",
   chars "comprehensive", chars "in-depth", chars "breakdown", chars "explain how"]

def simple_indicators : List Str :=
  [chars "what", chars "which", chars "do i have", chars "list", chars "show me", chars "quick"]

def tech_keywords : List Str :=
  [chars "technology", chars "tech", chars "skill", chars "programming", chars "language",
   chars "framework", chars "library", chars "tool", chars "platform", chars "stack"]

def project_detail_keywords : List Str :=
  [chars "project", chars "built", chars "developed", chars "worked on", chars "portfolio",
   chars "experience with", chars "used in"]

def experience_keywords : List Str :=
  [chars "experience", chars "years", chars "how long", chars "proficiency", chars "level",
   chars "expert", chars "beginner", chars "advanced"]

/-- `_analyze_query_requirements(query)`. -/
def analyze_query_requirements (query : Str) : QueryRequirements :=
  let query_lower := lowerStr query
  let c0 := chars "standard"
  let r0 := chars "medium"
  let (c1, r1) :=
    if complex_indicators.any (fun ind => hasSubstr ind query_lower) then
      (chars "comprehensive", chars "long")
    else if simple_indicators.any (fun ind => hasSubstr ind query_lower) then
      (chars "minimal", chars "short")
    else (c0, r0)
  let needsTech := tech_keywords.any (fun kw => hasSubstr kw query_lower)
  let c2 := if needsTech then chars "technical_deep" else c1
  let needsProj := project_detail_keywords.any (fun kw => hasSubstr kw query_lower)
  let c3 := if needsProj && c2 = chars "standard" then chars "project_focused" else c2
  let needsExp := experience_keywords.any (fun kw => hasSubstr kw query_lower)
  let specific := (tech_relationships.map (·.1)).filter (fun tech => hasSubstr tech query_lower)
  let qt :=
    if [chars "analyze", chars "assessment", chars "strengths", chars "weaknesses"].any
        (fun w => decide (w ∈ wordSet query_lower)) then chars "analysis"
    else if [chars "suggest", chars "recommend", chars "advice", chars "should"].any
        (fun w => decide (w ∈ wordSet query_lower)) then chars "recommendation"
    else if [chars "what", chars "which", chars "list", chars "show"].any
        (fun w => decide (w ∈ wordSet query_lower)) then chars "factual"
    else if [chars "how", chars "explain", chars "describe"].any
        (fun w => decide (w ∈ wordSet query_lower)) then chars "explanatory"
    else chars "general"
  { complexity_level := c3
    needs_technical_detail := needsTech
    needs_project_detail := needsProj
    needs_experience_detail := needsExp
    specific_technologies := specific
    query_type := qt
    expected_response_length := r1 }

/-- `_select_context_level(requirements, context_items)`. -/
def select_context_level (requirements : QueryRequirements) (context_items : List ContextItem) : ContextLevel :=
  let complexity := requirements.complexity_level
  let highCount := (context_items.filter (fun item => decide ((qc 7 10).lt item.relevance_score))).length
  let complexity2 :=
    if highCount < 2 && complexity = chars "comprehensive" then chars "standard"
    else if 8 < highCount && complexity = chars "minimal" then chars "standard"
    else complexity
  levelFor complexity2

/-- De-duplication by content keeping first occurrences (the
`seen_content` loop in `_select_context_items`).  Fuel-driven structural
recursion; the fuel is the list length and each step strictly shrinks the
list, so the fuel never runs out in `uniqueByContent`. -/
def uniqueByContentFuel : Nat → List ContextItem → List ContextItem
  | 0, _ => []
  | _, [] => []
  | fuel + 1, i :: rest =>
    i :: uniqueByContentFuel fuel (rest.filter (fun j => !decide (j.content = i.content)))

def uniqueByContent (l : List ContextItem) : List ContextItem := uniqueByContentFuel l.length l

/-- The fill loop of `_select_context_items`: extend `acc` with items of
`filtered` whose content is fresh, while staying under `maxItems`. -/
def fillItems (maxItems : Nat) : List ContextItem → List ContextItem → List ContextItem
  | [], acc => acc
  | i :: rest, acc =>
    if !acc.any (fun j => decide (j.content = i.content)) && acc.length < maxItems then
      fillItems maxItems rest (acc ++ [i])
    else
      fillItems maxItems rest acc

/-- `_select_context_items(all_items, level, requirements)`. -/
def select_context_items (all_items : List ContextItem) (level : ContextLevel)
    (requirements : QueryRequirements) : List ContextItem :=
  let filtered0 := all_items.filter (fun item => decide (level.min_score_threshold.le item.relevance_score))
  let filtered := if !level.include_activities then
      filtered0.filter (fun item => !decide (item.source = chars "activities"))
    else filtered0
  let prioritized1 :=
    if requirements.needs_technical_detail then
      (filtered.filter (fun item => decide ((qc 3 10).lt item.technical_score))).take (level.max_items / 2)
    else []
  let prioritized2 :=
    if requirements.needs_project_detail then
      (filtered.filter (fun item => decide ((qc 3 10).lt item.project_score))).take (level.max_items / 2)
    else []
  let uniquePrioritized := uniqueByContent (prioritized1 ++ prioritized2)
  let remaining_slots := level.max_items - uniquePrioritized.length
  let filled := if 0 < remaining_slots then fillItems level.max_items filtered uniquePrioritized else uniquePrioritized
  filled.take level.max_items

/-- `_add_missing_critical_context(all_items, selected_items, validation_result, level)`. -/
def add_missing_critical_context (all_items selected_items : List ContextItem)
    (validation_result : CriticalContextResult) (level : ContextLevel) : List ContextItem :=
  let current_content := selected_items.map (·.content)
  let additional1 :=
    if chars "technical_details" ∈ validation_result.missing_critical_info then
      (all_items.filter (fun item =>
        decide ((qc 2 10).lt item.technical_score) && !decide (item.content ∈ current_content))).take 2
    else []
  let additional2 :=
    if chars "project_details" ∈ validation_result.missing_critical_info then
      (all_items.filter (fun item =>
        decide ((qc 2 10).lt item.project_score) && !decide (item.content ∈ current_content))).take 2
    else []
  let combined := selected_items ++ additional1 ++ additional2
  combined.take (min (level.max_items + 2) 12)

/-- The formatted context map (`formatted_context` dict): the four possible
keys, each present (`some`) exactly when the corresponding source group is. -/
structure ContextMap where
  profile : Option Str
  skills : Option Str
  projects : Option Str
  activities : Option Str
deriving DecidableEq, Repr

/-- `skills_by_category` accumulation: categories in first-seen order, each
with its non-empty skill names in item order. -/
def addSkillToCats (cat skill : Str) : List (Str × List Str) → List (Str × List Str)
  | [] => [(cat, if skill.isEmpty then [] else [skill])]
  | (c, sks) :: rest =>
    if c = cat then (c, sks ++ (if skill.isEmpty then [] else [skill])) :: rest
    else (c, sks) :: addSkillToCats cat skill rest

/-- One profile line of `_format_context`. -/
def formatProfileLine (content : Str) : Str :=
  match splitOnce (chars ": ") content with
  | some (key, value) =>
    if lowerStr key = chars "profile_summary" then chars "Background: " ++ value
    else key ++ chars ": " ++ value
  | none => content

/-- `_format_context(context_items, requirements)`. -/
def format_context (context_items : List ContextItem) : ContextMap :=
  let profileItems := context_items.filter (fun i => decide (i.source = chars "profile"))
  let skillItems := context_items.filter (fun i => decide (i.source = chars "skills"))
  let projectItems := context_items.filter (fun i => decide (i.source = chars "projects"))
  let activityItems := context_items.filter (fun i => decide (i.source = chars "activities"))
  let profilePart :=
    if profileItems.isEmpty then none
    else some (joinSep (chars " | ") (profileItems.map (fun i => formatProfileLine i.content)))
  let skillsPart :=
    if skillItems.isEmpty then none
    else
      let cats := skillItems.foldl (fun acc i => addSkillToCats i.metaCategory i.metaSkill acc) []
      let parts := (cats.filter (fun c => !c.2.isEmpty)).map (fun c => c.1 ++ chars ": " ++ joinSep (chars ", ") c.2)
      some (joinSep (chars " | ") parts)
  let projectsPart :=
    if projectItems.isEmpty then none
    else some (joinSep (chars " | ") (projectItems.map (fun i =>
      if hasSubstr (chars "Project:") i.content then replaceAll (chars " | ") (chars " - ") i.content
      else i.content)))
  let activitiesPart :=
    if activityItems.isEmpty then none
    else some (joinSep (chars " | ") (activityItems.map (·.content)))
  { profile := profilePart, skills := skillsPart, projects := projectsPart, activities := activitiesPart }

/-- The dict returned by `build_context`. -/
structure ContextBundle where
  context : ContextMap
  context_level : Str
  items_used : Nat
  validation_result : CriticalContextResult
  requirements : QueryRequirements
  total_items_available : Nat
  avg_relevance_score : Frac
  technical_items : Nat
  project_items : Nat
deriving DecidableEq, Repr

/-- The selected items of a `build_context` run, after the
missing-critical-context backfill (step 6). -/
def build_selected_items (data : ProfileData) (query : Str) : List ContextItem :=
  let requirements := analyze_query_requirements query
  let all_items := score_context_items data query
  let level := select_context_level requirements all_items
  let selected := select_context_items all_items level requirements
  let validation := validate_critical_context selected query
  if !validation.missing_critical_info.isEmpty then
    add_missing_critical_context all_items selected validation level
  else selected

/-- `build_context(data, query)`. -/
def build_context (data : ProfileData) (query : Str) : ContextBundle :=
  let requirements := analyze_query_requirements query
  let all_items := score_context_items data query
  let level := select_context_level requirements all_items
  let selected0 := select_context_items all_items level requirements
  let validation := validate_critical_context selected0 query
  let selected := build_selected_items data query
  { context := format_context selected
    context_level := level.name
    items_used := selected.length
    validation_result := validation
    requirements := requirements
    total_items_available := all_items.length
    avg_relevance_score :=
      if selected.isEmpty then ⟨0, 1⟩ else qdiv (qsum (selected.map (·.relevance_score))) (natQ selected.length)
    technical_items := (selected.filter (fun item => decide ((qc 3 10).lt item.technical_score))).length
    project_items := (selected.filter (fun item => decide ((qc 3 10).lt item.project_score))).length }

/-! ## Context Validator (`core/context_validator.py`), repair path -/

/-- `ValidationIssue` dataclass. -/
structure ValidationIssue where
  severity : Str
  category : Str
  message : Str
  suggestion : Str
deriving DecidableEq, Repr

/-- The critical issues of a validation report
(`[i for i in report['issues'] if i.severity == 'critical']`). -/
def criticalIssues (issues : List ValidationIssue) : List ValidationIssue :=
  issues.filter (fun i => decide (i.severity = chars "critical"))

/-- Python truthiness of an optional context section: missing key or empty
string. -/
def sectionMissing : Option Str → Bool
  | none => true
  | some s => s.isEmpty

/-- The project fallback fragment injected by `fix_context_issues`. -/
def projectFallback (project : ProjectData) : Str :=
  let project_name := if project.domain.isEmpty then project.name else project.domain
  let technologies := if project.technologies.isEmpty then project.related_skills else project.technologies
  let tech_str := joinSep (chars ", ") (technologies.take 3)
  chars "Project: " ++ project_name ++ chars " - Technologies: " ++ tech_str

/-- The skills fallback fragment: the first category with a non-empty skill
list, with its first three skills. -/
def skillsFallback (skills : List (Str × List Str)) : Option Str :=
  match skills.find? (fun cat => !cat.2.isEmpty) with
  | none => none
  | some cat => some (cat.1 ++ chars ": " ++ joinSep (chars ", ") (cat.2.take 3))

/-- One iteration of the repair loop of `fix_context_issues`. -/
def fixOneIssue (original_data : ProfileData) (ctx : ContextMap) (issue : ValidationIssue) : ContextMap :=
  if issue.category = chars "missing_context" then
    if hasSubstr (chars "project") (lowerStr issue.message) && !original_data.projects.isEmpty then
      if sectionMissing ctx.projects then
        match original_data.projects with
        | [] => ctx
        | project :: _ => { ctx with projects := some (projectFallback project) }
      else ctx
    else if hasSubstr (chars "skill") (lowerStr issue.message) && !original_data.technical_skills.isEmpty then
      if sectionMissing ctx.skills then
        match skillsFallback original_data.technical_skills with
        | none => ctx
        | some s => { ctx with skills := some s }
      else ctx
    else ctx
  else ctx

/-- `fix_context_issues(context, validation_report, original_data)`; the
report is represented by its `issues` list, the only field the function
reads. -/
def fix_context_issues (ctx : ContextMap) (issues : List ValidationIssue)
    (original_data : ProfileData) : ContextMap :=
  (criticalIssues issues).foldl (fixOneIssue original_data) ctx

/-! ## Response Cache (`core/response_cache.py`) -/

/-- `CacheEntry` dataclass; the timestamp is in integer seconds. -/
structure CacheEntry where
  response : Str
  query_type : Str
  timestamp : Int
  hit_count : Nat
deriving DecidableEq, Repr

/-- The cache object: an insertion-ordered key/value list (the model of the
Python dict) plus the two configuration constants. -/
structure ResponseCache where
  cache : List (Str × CacheEntry)
  max_cache_size : Nat
  cache_ttl : Int
deriving DecidableEq, Repr

/-- `ResponseCache()` with the default constructor arguments
(`max_cache_size=100`, `cache_ttl_hours=24`). -/
def initCache : ResponseCache := { cache := [], max_cache_size := 100, cache_ttl := 24 * 3600 }

def cacheable_types : List Str :=
  [chars "profile_analysis", chars "career_suggestions", chars "project_ideas",
   chars "skill_analysis", chars "technical_question", chars "project_specific_question",
   chars "general_question"]

def non_cacheable_keywords : List Str :=
  [chars "today", chars "now", chars "latest news", chars "recent update",
   chars "right now", chars "this moment"]

def cache_profile_keywords : List Str :=
  [chars "profile", chars "experience", chars "skills", chars "project", chars "work",
   chars "background", chars "about me", chars "my"]

/-- The ordered replacement table of `_normalize_question` (Python dict in
insertion order). -/
def normalization_replacements : List Str :=
  [chars "can you ", chars "could you ", chars "please ", chars "would you ",
   chars "?", chars ".", chars "my ", chars "the ", chars "a ", chars "an "]

/-- `_normalize_question(question)`. -/
def normalize_question (question : Str) : Str :=
  let q1 := pyStrip (lowerStr question)
  let q2 := normalization_replacements.foldl (fun s pat => replaceAll pat [] s) q1
  collapseWs q2

/-- `_generate_cache_key(question, query_type, context_summary)`.  The md5
digest is a deterministic function of the string below, so the model uses the
string itself as the key: two keys are equal exactly when the hashed inputs
are. -/
def generate_cache_key (question query_type context_summary : Str) : Str :=
  query_type ++ chars ":" ++ normalize_question question ++ chars ":" ++ context_summary

/-- `_is_cacheable(question, query_type)`. -/
def is_cacheable (question query_type : Str) : Bool :=
  if !decide (query_type ∈ cacheable_types) then false
  else if query_type = chars "general_question" &&
      !cache_profile_keywords.any (fun kw => hasSubstr kw (lowerStr question)) then false
  else if non_cacheable_keywords.any (fun kw => hasSubstr kw (lowerStr question)) then false
  else
    let len := (pyStrip question).length
    if len < 10 || 500 < len then false else true

/-- Model of the Python response-quality guard in `cache_response`: responses
shorter than 20 stripped characters, containing "error", or starting with
"sorry" are never stored. -/
def degradedResponse (response : Str) : Bool :=
  (pyStrip response).length < 20 || hasSubstr (chars "error") (lowerStr response) ||
    (chars "sorry").isPrefixOf (lowerStr response)

/-- Python dict assignment `cache[key] = entry`: update in place if present,
else append. -/
def dictInsert (key : Str) (entry : CacheEntry) : List (Str × CacheEntry) → List (Str × CacheEntry)
  | [] => [(key, entry)]
  | (k, e) :: rest => if k = key then (key, entry) :: rest else (k, e) :: dictInsert key entry rest

/-- Python dict lookup. -/
def lookupKey (key : Str) (l : List (Str × CacheEntry)) : Option CacheEntry :=
  (l.find? (fun p => decide (p.1 = key))).map (·.2)

/-- The comparison of `sorted(self.cache.items(), key=lambda x: x[1].timestamp)`
(ascending by timestamp, stable). -/
def keepByTsAsc (y x : Str × CacheEntry) : Bool := decide (y.2.timestamp ≤ x.2.timestamp)

def sortByTs (l : List (Str × CacheEntry)) : List (Str × CacheEntry) :=
  sortStable keepByTsAsc l

/-- `_cleanup_cache()` at time `now`: drop expired entries, then if the dict
is still over the size limit, delete the oldest-timestamp entries. -/
def cleanup_cache (now : Int) (c : ResponseCache) : ResponseCache :=
  let l1 := c.cache.filter (fun p => decide (now - p.2.timestamp ≤ c.cache_ttl))
  let l2 :=
    if c.max_cache_size < l1.length then
      let removedKeys : List Str := ((sortByTs l1).take (l1.length - c.max_cache_size)).map (·.1)
      l1.filter (fun p => !decide (p.1 ∈ removedKeys))
    else l1
  { c with cache := l2 }

/-- `get_cached_response(question, query_type, context_summary)` at time
`now`: the returned optional response together with the updated cache
state. -/
def get_cached_response (question query_type context_summary : Str) (now : Int)
    (c : ResponseCache) : Option Str × ResponseCache :=
  if !is_cacheable question query_type then (none, c)
  else
    let key := generate_cache_key question query_type context_summary
    match lookupKey key c.cache with
    | none => (none, c)
    | some entry =>
      if !decide (now - entry.timestamp < c.cache_ttl) then
        (none, { c with cache := c.cache.filter (fun p => !decide (p.1 = key)) })
      else
        (some entry.response,
         { c with cache := c.cache.map (fun p =>
            if p.1 = key then (p.1, { p.2 with hit_count := p.2.hit_count + 1 }) else p) })

/-- `cache_response(question, query_type, response, context_summary)` at time
`now`. -/
def cache_response (question query_type response context_summary : Str) (now : Int)
    (c : ResponseCache) : ResponseCache :=
  if !is_cacheable question query_type then c
  else if degradedResponse response then c
  else
    let key := generate_cache_key question query_type context_summary
    let entry : CacheEntry := { response := response, query_type := query_type, timestamp := now, hit_count := 0 }
    cleanup_cache now { c with cache := dictInsert key entry c.cache }

/-- The external cache operations (for stating reachability invariants). -/
inductive CacheOp where
  | put (question query_type response context_summary : Str) (now : Int)
  | lookup (question query_type context_summary : Str) (now : Int)
  | invalidate
deriving DecidableEq, Repr

def applyCacheOp (c : ResponseCache) : CacheOp → ResponseCache
  | .put q t r f now => cache_response q t r f now c
  | .lookup q t f now => (get_cached_response q t f now c).2
  | .invalidate => { c with cache := [] }

/-- The cache state after a sequence of operations on a fresh default cache. -/
def runCacheOps (ops : List CacheOp) : ResponseCache := ops.foldl applyCacheOp initCache

/-! ## Vector database search (`core/vector_db.py`)

The FAISS index and the embedding model are external collaborators; `search`
feeds their raw output (a list of score/index pairs) through a quality filter
and a text-truncation step.  The metadata record is represented by its
`"text"` entry (`metadata.get("text", "")`), the only field `search`
reads. -/

structure SearchResult where
  text : Str
  metadata_text : Str
  score : Frac
deriving DecidableEq, Repr

/-- The result-assembly loop of `VectorDB.search`, applied to the raw FAISS
scores/indices: quality filter at similarity 0.3, truncation of texts longer
than 150 characters to 147 characters plus `"..."`, and the final `[:top_k]`
cut. -/
def vdb_search_results (metadata : List Str) (hits : List (Frac × Nat)) (top_k : Nat) : List SearchResult :=
  (hits.filterMap (fun h =>
    if h.2 < metadata.length && decide ((qc 3 10).le h.1) then
      let text := metadata.getD h.2 []
      some { text := if 150 < text.length then text.take 147 ++ chars "..." else text
             metadata_text := text
             score := h.1 }
    else none)).take top_k

/-- Invariant: every entry in the cache holds a non-degraded response. -/
def cacheEntriesGood (c : ResponseCache) : Prop :=
  ∀ p ∈ c.cache, degradedResponse p.2.response = false

/-- Well-formedness of a cache state at time `now`: no entry is stamped in
the future, the dict is within its size cap, the cap is at least 1 and the
TTL is positive.  Every state reachable through the cache API from a default
`ResponseCache()` under monotone time satisfies this. -/
def CacheWF (now : Int) (c : ResponseCache) : Prop :=
  (∀ p ∈ c.cache, p.2.timestamp ≤ now) ∧ c.cache.length ≤ c.max_cache_size ∧
    1 ≤ c.max_cache_size ∧ 0 < c.cache_ttl

/-! ## Concrete test fixtures used by the closed theorems below -/

/-- A profile with a single Angular project (used to probe score clamping). -/
def oneProjectData : ProfileData :=
  { user_profile := []
    technical_skills := []
    projects := [{ domain := chars "Angular dashboard", name := [], description := [], role := [],
                   technologies := [], related_skills := [chars "Angular", chars "TypeScript"] }]
    other_activities := [] }

/-- The profile snapshot of the spec's Angular scenario: one project with
domain "Angular dashboard" and related skills Angular/TypeScript, and skills
Frontend -> Angular, TypeScript. -/
def angularScenarioData : ProfileData :=
  { user_profile := []
    technical_skills := [(chars "Frontend", [chars "Angular", chars "TypeScript"])]
    projects := [{ domain := chars "Angular dashboard", name := [], description := [], role := [],
                   technologies := [], related_skills := [chars "Angular", chars "TypeScript"] }]
    other_activities := [] }

/-- The query of the spec's Angular scenario. -/
def angularScenarioQuery : Str := chars "What Angular projects have I worked on?"

instance : Inhabited SearchResult := ⟨⟨[], [], ⟨0, 1⟩⟩⟩

/-- A 160-character stored document text (used to probe search truncation). -/
def longStoredText : Str := List.replicate 160 'x'

/-! ## Helper lemmas about the stable sort and list operations -/

theorem insertStable_perm {A : Type} (keep : A → A → Bool) (x : A) (l : List A) :
    List.Perm (insertStable keep x l) (x :: l) := by
  induction l with
  | nil => exact List.Perm.refl _
  | cons y ys ih =>
    unfold insertStable
    by_cases h : keep y x
    · simp only [h, if_true]
      exact (ih.cons y).trans (List.Perm.swap x y ys)
    · simp only [h, if_false]
      exact List.Perm.refl _

theorem sortStable_foldl_perm {A : Type} (keep : A → A → Bool) (l acc : List A) :
    List.Perm (l.foldl (fun a x => insertStable keep x a) acc) (acc ++ l) := by
  induction l generalizing acc with
  | nil => simp
  | cons x xs ih =>
    simp only [List.foldl_cons]
    refine (ih (insertStable keep x acc)).trans ?_
    have h1 : List.Perm (insertStable keep x acc ++ xs) ((x :: acc) ++ xs) :=
      (insertStable_perm keep x acc).append_right xs
    refine h1.trans ?_
    simpa using List.perm_middle.symm

theorem sortStable_perm {A : Type} (keep : A → A → Bool) (l : List A) :
    List.Perm (sortStable keep l) l := by
  simpa using sortStable_foldl_perm keep l []

theorem mem_of_mem_sortStable {A : Type} {keep : A → A → Bool} {l : List A} {a : A}
    (h : a ∈ sortStable keep l) : a ∈ l :=
  (sortStable_perm keep l).mem_iff.mp h

theorem length_sortStable {A : Type} (keep : A → A → Bool) (l : List A) :
    (sortStable keep l).length = l.length :=
  (sortStable_perm keep l).length_eq

theorem insertStable_append_of_keep {A : Type} {keep : A → A → Bool} {x : A} {l : List A}
    (h : ∀ y ∈ l, keep y x = true) : insertStable keep x l = l ++ [x] := by
  induction l with
  | nil => rfl
  | cons y ys ih =>
    unfold insertStable
    have hy : keep y x = true := h y (List.mem_cons_self y ys)
    simp only [hy, if_true, List.cons_append]
    congr 1
    exact ih (fun z hz => h z (List.mem_cons_of_mem y hz))

theorem sortStable_append_last {A : Type} {keep : A → A → Bool} {x : A} {l : List A}
    (h : ∀ y ∈ l, keep y x = true) :
    sortStable keep (l ++ [x]) = sortStable keep l ++ [x] := by
  unfold sortStable
  rw [List.foldl_append]
  simp only [List.foldl_cons, List.foldl_nil]
  exact insertStable_append_of_keep (fun y hy => h y (mem_of_mem_sortStable hy))

/-! ## C7: repair idempotence -/

theorem fix_context_issues_of_no_critical (ctx : ContextMap) (issues : List ValidationIssue)
    (d : ProfileData) (h : criticalIssues issues = []) :
    fix_context_issues ctx issues d = ctx := by
  unfold fix_context_issues
  rw [h]
  rfl

/-- C7: once a report has no remaining critical issues, running
`fix_context_issues` a second time with that report leaves the context map of
the first repair unchanged:
`repair(repair(ctx, report, P), report', P) = repair(ctx, report, P)`. -/
theorem repair_idempotent (ctx : ContextMap) (issues issues2 : List ValidationIssue)
    (d : ProfileData) (h : criticalIssues issues2 = []) :
    fix_context_issues (fix_context_issues ctx issues d) issues2 d =
      fix_context_issues ctx issues d :=
  fix_context_issues_of_no_critical _ issues2 d h

/-- Witness for C7 at a concrete repair: a context map missing its projects
section is repaired from the profile's first project, and a second repair with
a critical-free report changes nothing. -/
theorem repair_idempotent_witness :
    criticalIssues [⟨chars "warning", chars "missing_context", chars "Context seems too brief for accurate response", chars "Include more detailed context information"⟩] = [] ∧
    fix_context_issues
      (fix_context_issues
        { profile := none, skills := some (chars "Frontend: Angular"), projects := none, activities := none }
        [⟨chars "critical", chars "missing_context", chars "Query asks about projects but no project context provided", chars "Include relevant project information"⟩]
        { user_profile := [], technical_skills := [],
          projects := [{ domain := chars "Shop", name := [], description := [], role := [],
                         technologies := [chars "React"], related_skills := [] }],
          other_activities := [] })
      [⟨chars "warning", chars "missing_context", chars "Context seems too brief for accurate response", chars "Include more detailed context information"⟩]
      { user_profile := [], technical_skills := [],
        projects := [{ domain := chars "Shop", name := [], description := [], role := [],
                       technologies := [chars "React"], related_skills := [] }],
        other_activities := [] } =
    fix_context_issues
      { profile := none, skills := some (chars "Frontend: Angular"), projects := none, activities := none }
      [⟨chars "critical", chars "missing_context", chars "Query asks about projects but no project context provided", chars "Include relevant project information"⟩]
      { user_profile := [], technical_skills := [],
        projects := [{ domain := chars "Shop", name := [], description := [], role := [],
                       technologies := [chars "React"], related_skills := [] }],
        other_activities := [] } := by
  constructor
  · decide
  · exact repair_idempotent _ _ _ _ (by decide)

/-! ## C8: cache-key normalization collapses near-duplicate phrasings -/

/-- C8: the questions "Can you list my skills?" and "list my skills" normalize
to the same string, so for any query type and any context fingerprint
`_generate_cache_key` maps them to the identical cache key. -/
theorem cache_key_collapses_phrasings (query_type fingerprint : Str) :
    generate_cache_key (chars "Can you list my skills?") query_type fingerprint =
      generate_cache_key (chars "list my skills") query_type fingerprint := by
  unfold generate_cache_key
  have h : normalize_question (chars "Can you list my skills?") =
      normalize_question (chars "list my skills") := by decide
  rw [h]

/-! ## C5: the builder never exceeds its item bounds -/

theorem levelFor_cases (s : Str) :
    levelFor s = minimalLevel ∨ levelFor s = standardLevel ∨ levelFor s = comprehensiveLevel ∨
      levelFor s = technicalDeepLevel ∨ levelFor s = projectFocusedLevel := by
  unfold levelFor
  repeat' split
  all_goals simp

theorem levelFor_idem (s : Str) : levelFor (levelFor s).name = levelFor s := by
  rcases levelFor_cases s with h | h | h | h | h <;> rw [h] <;> decide

theorem levelFor_max_le_ten (s : Str) : (levelFor s).max_items ≤ 10 := by
  rcases levelFor_cases s with h | h | h | h | h <;> rw [h] <;> decide

theorem select_context_level_eq_levelFor (req : QueryRequirements) (items : List ContextItem) :
    ∃ s, select_context_level req items = levelFor s :=
  ⟨_, rfl⟩

theorem select_context_level_max_le_ten (req : QueryRequirements) (items : List ContextItem) :
    (select_context_level req items).max_items ≤ 10 := by
  obtain ⟨s, hs⟩ := select_context_level_eq_levelFor req items
  rw [hs]
  exact levelFor_max_le_ten s

theorem select_context_items_length_le (items : List ContextItem) (lvl : ContextLevel)
    (req : QueryRequirements) : (select_context_items items lvl req).length ≤ lvl.max_items := by
  unfold select_context_items
  simpa using List.length_take_le _ _

theorem add_missing_critical_context_length_le (all_items selected : List ContextItem)
    (v : CriticalContextResult) (lvl : ContextLevel) :
    (add_missing_critical_context all_items selected v lvl).length ≤ min (lvl.max_items + 2) 12 := by
  unfold add_missing_critical_context
  simpa using List.length_take_le _ _

theorem build_selected_items_length_le (d : ProfileData) (q : Str) :
    (build_selected_items d q).length ≤
        (select_context_level (analyze_query_requirements q) (score_context_items d q)).max_items + 2 ∧
      (build_selected_items d q).length ≤ 12 := by
  have hmax := select_context_level_max_le_ten (analyze_query_requirements q) (score_context_items d q)
  simp only [build_selected_items]
  split
  · constructor
    · exact le_trans (add_missing_critical_context_length_le _ _ _ _)
        (le_trans (min_le_left _ _) (le_refl _))
    · exact le_trans (add_missing_critical_context_length_le _ _ _ _) (min_le_right _ _)
  · constructor
    · exact le_trans (select_context_items_length_le _ _ _) (Nat.le_add_right _ 2)
    · exact le_trans (select_context_items_length_le _ _ _) (le_trans hmax (by omega))

/-- C5: for every profile snapshot and query, the number of selected items
reported by `build_context` (`items_used`), including after the
missing-critical-context backfill, never exceeds the chosen level's
`max_items + 2` and never exceeds the hard cap of 12. -/
theorem builder_item_bound (d : ProfileData) (q : Str) :
    (build_context d q).items_used ≤ (levelFor (build_context d q).context_level).max_items + 2 ∧
      (build_context d q).items_used ≤ 12 := by
  have hlevel : (build_context d q).context_level =
      (select_context_level (analyze_query_requirements q) (score_context_items d q)).name := rfl
  have hitems : (build_context d q).items_used = (build_selected_items d q).length := rfl
  obtain ⟨s, hs⟩ := select_context_level_eq_levelFor (analyze_query_requirements q) (score_context_items d q)
  have hidem : levelFor (build_context d q).context_level =
      select_context_level (analyze_query_requirements q) (score_context_items d q) := by
    rw [hlevel, hs, levelFor_idem]
  obtain ⟨h1, h2⟩ := build_selected_items_length_le d q
  constructor
  · rw [hitems, hidem]
    exact h1
  · rw [hitems]
    exact h2

/-! ## C6: determinism of `build_context` -/

/-- C6: `build_context` is deterministic — two invocations on the same profile
snapshot and query produce identical context bundles (same formatted context
map, level name, item count, validation result and metadata).  The embedding
is a pure function of its two arguments because the Python method reads only
its arguments and the constant rule tables and mutates no state, so equality
of the two results holds by reflexivity of the embedding. -/
theorem build_context_deterministic (d : ProfileData) (q : Str) (b1 b2 : ContextBundle)
    (h1 : b1 = build_context d q) (h2 : b2 = build_context d q) : b1 = b2 :=
  h1.trans h2.symm

/-- Witness for C6: two runs on a tiny concrete profile and query agree. -/
theorem build_context_deterministic_witness :
    build_context
        { user_profile := [(chars "name", chars "Niki")], technical_skills := [],
          projects := [], other_activities := [] } (chars "who am i") =
      build_context
        { user_profile := [(chars "name", chars "Niki")], technical_skills := [],
          projects := [], other_activities := [] } (chars "who am i") :=
  build_context_deterministic _ _ _ _ rfl rfl

/-! ## C1: score bounds -/

theorem iteFrac_nonneg {c : Prop} [Decidable c] {x y : Frac} (hx : x.Nonneg) (hy : y.Nonneg) :
    (if c then x else y).Nonneg := by
  by_cases h : c <;> simp [h, hx, hy]

theorem natQ_nonneg (n : Nat) : (natQ n).Nonneg :=
  ⟨Int.natCast_nonneg n, one_pos⟩

theorem natQ_den_pos (n : Nat) : 0 < (natQ n).den := Int.one_pos

theorem zeroFrac_nonneg : (Frac.mk 0 1).Nonneg := ⟨Int.le_refl 0, Int.one_pos⟩

theorem tenth_nonneg : (qc 1 10).Nonneg := by decide

theorem frac_const_nonneg (n d : Int) (hn : 0 ≤ n) (hd : 0 < d) : (qc n d).Nonneg := ⟨hn, hd⟩

theorem calculate_relevance_score_nonneg (content : Str) (q t : List Str) :
    (calculate_relevance_score content q t).Nonneg := by
  unfold calculate_relevance_score
  refine qmin_nonneg ?_ (frac_const_nonneg 1 1 (by omega) (by omega))
  refine qadd_nonneg (qadd_nonneg (qadd_nonneg ?_ ?_) ?_)
    (frac_const_nonneg 1 10 (by omega) (by omega))
  · exact qmul_nonneg (iteFrac_nonneg (qdiv_nonneg (natQ_nonneg _) (natQ_den_pos _)) zeroFrac_nonneg)
      (frac_const_nonneg 4 10 (by omega) (by omega))
  · exact qmul_nonneg (iteFrac_nonneg (qdiv_nonneg (natQ_nonneg _) (natQ_den_pos _)) zeroFrac_nonneg)
      (frac_const_nonneg 5 10 (by omega) (by omega))
  · refine qadd_nonneg (qadd_nonneg (qadd_nonneg ?_ ?_) ?_) ?_ <;>
      exact iteFrac_nonneg (by decide) zeroFrac_nonneg

theorem calculate_relevance_score_le_one (content : Str) (q t : List Str) :
    (calculate_relevance_score content q t).le (qc 1 1) := by
  unfold calculate_relevance_score
  exact qmin_le_right

theorem calculate_technical_score_nonneg (content : Str) (t : List Str) :
    (calculate_technical_score content t).Nonneg := by
  unfold calculate_technical_score
  refine qmin_nonneg ?_ (frac_const_nonneg 1 1 (by omega) (by omega))
  exact qadd_nonneg (qmul_nonneg (natQ_nonneg _) (frac_const_nonneg 3 10 (by omega) (by omega)))
    (qmul_nonneg (natQ_nonneg _) (frac_const_nonneg 2 10 (by omega) (by omega)))

theorem calculate_technical_score_le_one (content : Str) (t : List Str) :
    (calculate_technical_score content t).le (qc 1 1) := by
  unfold calculate_technical_score
  exact qmin_le_right

theorem calculate_related_tech_boost_nonneg (skill : Str) (t : List Str) :
    (calculate_related_tech_boost skill t).Nonneg := by
  unfold calculate_related_tech_boost
  cases tech_relationships.find? (fun p => p.1 = skill) with
  | none => exact zeroFrac_nonneg
  | some p => exact qmul_nonneg (natQ_nonneg _) (frac_const_nonneg 1 10 (by omega) (by omega))

theorem projectTechBoost_nonneg (technologies q t : List Str) {base : Frac} (hb : base.Nonneg) :
    (projectTechBoost technologies q t base).Nonneg := by
  induction technologies generalizing base with
  | nil => exact hb
  | cons tech rest ih =>
    unfold projectTechBoost
    simp only [List.foldl_cons]
    by_cases h1 : lowerStr tech ∈ t
    · simp only [h1, if_pos]
      exact ih (qmul_nonneg hb (frac_const_nonneg 18 10 (by omega) (by omega)))
    · simp only [h1, if_neg, not_false_iff]
      by_cases h2 : lowerStr tech ∈ q
      · simp only [h2, if_pos]
        exact ih (qmul_nonneg hb (frac_const_nonneg 15 10 (by omega) (by omega)))
      · simp only [h2, if_neg, not_false_iff]
        exact ih hb

theorem nonneg_qle {x : Frac} (h : x.Nonneg) : (qc 0 1).le x := by
  unfold Frac.le qc
  simpa using h.1

theorem score_profile_items_bounds {profile : List (Str × Str)} {q t : List Str}
    {item : ContextItem} (h : item ∈ score_profile_items profile q t) :
    (qc 0 1).le item.relevance_score ∧ (qc 0 1).le item.project_score ∧
      (qc 0 1).le item.technical_score ∧ item.technical_score.le (qc 1 1) := by
  unfold score_profile_items at h
  rcases List.mem_filterMap.mp h with ⟨kv, _, heq⟩
  by_cases hc : kv.1 = chars "attachments" || kv.1 = chars "urls" || kv.2.isEmpty
  · rw [if_pos hc] at heq
    cases heq
  · rw [if_neg hc] at heq
    cases heq
    refine ⟨?_, nonneg_qle zeroFrac_nonneg, ?_, ?_⟩
    · exact nonneg_qle (iteFrac_nonneg
        (qmul_nonneg (calculate_relevance_score_nonneg _ _ _) (frac_const_nonneg 15 10 (by omega) (by omega)))
        (calculate_relevance_score_nonneg _ _ _))
    · exact nonneg_qle (calculate_technical_score_nonneg _ _)
    · exact calculate_technical_score_le_one _ _

set_option maxHeartbeats 1000000 in
theorem score_skill_items_bounds {skills : List (Str × List Str)} {q t : List Str}
    {item : ContextItem} (h : item ∈ score_skill_items skills q t) :
    (qc 0 1).le item.relevance_score ∧ (qc 0 1).le item.project_score ∧
      (qc 0 1).le item.technical_score ∧ item.technical_score.le (qc 1 1) := by
  unfold score_skill_items at h
  rcases List.mem_flatMap.mp h with ⟨cat, _, hmem⟩
  rcases List.mem_map.mp hmem with ⟨skill, _, heq⟩
  cases heq
  refine ⟨?_, nonneg_qle zeroFrac_nonneg, ?_, ?_⟩
  · refine nonneg_qle (qmul_nonneg (iteFrac_nonneg
      (qmul_nonneg (calculate_relevance_score_nonneg _ _ _) (frac_const_nonneg 2 1 (by omega) (by omega)))
      (calculate_relevance_score_nonneg _ _ _)) ?_)
    exact qadd_nonneg (frac_const_nonneg 1 1 (by omega) (by omega)) (calculate_related_tech_boost_nonneg _ _)
  · exact nonneg_qle (calculate_technical_score_nonneg _ _)
  · exact calculate_technical_score_le_one _ _

set_option maxHeartbeats 1000000 in
theorem score_project_items_bounds {projects : List ProjectData} {q t : List Str}
    {item : ContextItem} (h : item ∈ score_project_items projects q t) :
    (qc 0 1).le item.relevance_score ∧ (qc 0 1).le item.project_score ∧
      (qc 0 1).le item.technical_score ∧ item.technical_score.le (qc 1 1) := by
  unfold score_project_items at h
  rcases List.mem_map.mp h with ⟨project, _, heq⟩
  cases heq
  refine ⟨?_, ?_, ?_, ?_⟩
  · exact nonneg_qle (projectTechBoost_nonneg _ _ _ (iteFrac_nonneg
      (qmul_nonneg (calculate_relevance_score_nonneg _ _ _) (frac_const_nonneg 25 10 (by omega) (by omega)))
      (calculate_relevance_score_nonneg _ _ _)))
  · exact nonneg_qle (qmul_nonneg (projectTechBoost_nonneg _ _ _ (iteFrac_nonneg
      (qmul_nonneg (calculate_relevance_score_nonneg _ _ _) (frac_const_nonneg 25 10 (by omega) (by omega)))
      (calculate_relevance_score_nonneg _ _ _))) (frac_const_nonneg 8 10 (by omega) (by omega)))
  · exact nonneg_qle (calculate_technical_score_nonneg _ _)
  · exact calculate_technical_score_le_one _ _

theorem score_activity_items_bounds {activities : List ActivityData} {q t : List Str}
    {item : ContextItem} (h : item ∈ score_activity_items activities q t) :
    (qc 0 1).le item.relevance_score ∧ (qc 0 1).le item.project_score ∧
      (qc 0 1).le item.technical_score ∧ item.technical_score.le (qc 1 1) := by
  unfold score_activity_items at h
  rcases List.mem_map.mp h with ⟨activity, _, heq⟩
  cases heq
  exact ⟨nonneg_qle (calculate_relevance_score_nonneg _ _ _),
    nonneg_qle (frac_const_nonneg 2 10 (by omega) (by omega)),
    nonneg_qle (calculate_technical_score_nonneg _ _), calculate_technical_score_le_one _ _⟩

/-- C1 (amended): every `ContextItem` produced by `score_context_items` has
nonnegative `relevance_score`, `technical_score` and `project_score`, and its
`technical_score` is clamped above by 1; the relevance and project scores,
however, are not clamped above by 1 (see the counterexample), because the
skill/project/profile-summary boost multipliers are applied after the clamp
inside `_calculate_relevance_score`. -/
theorem scorer_score_bounds (d : ProfileData) (q : Str) (item : ContextItem)
    (h : item ∈ score_context_items d q) :
    (qc 0 1).le item.relevance_score ∧ (qc 0 1).le item.project_score ∧
      (qc 0 1).le item.technical_score ∧ item.technical_score.le (qc 1 1) := by
  unfold score_context_items at h
  have h2 := mem_of_mem_sortStable h
  rcases List.mem_append.mp h2 with h3 | h3
  · rcases List.mem_append.mp h3 with h4 | h4
    · rcases List.mem_append.mp h4 with h5 | h5
      · by_cases hc : d.user_profile.isEmpty
        · rw [if_pos hc] at h5; cases h5
        · rw [if_neg hc] at h5; exact score_profile_items_bounds h5
      · by_cases hc : d.technical_skills.isEmpty
        · rw [if_pos hc] at h5; cases h5
        · rw [if_neg hc] at h5; exact score_skill_items_bounds h5
    · by_cases hc : d.projects.isEmpty
      · rw [if_pos hc] at h4; cases h4
      · rw [if_neg hc] at h4; exact score_project_items_bounds h4
  · by_cases hc : d.other_activities.isEmpty
    · rw [if_pos hc] at h3; cases h3
    · rw [if_neg hc] at h3; exact score_activity_items_bounds h3

/-- Counterexample to C1 as stated: on a profile with one Angular project and
the query "worked angular", `score_context_items` returns an item whose
`relevance_score` and `project_score` both exceed 1 — the 2.5x project-intent
and 1.8x technology boosts are applied after the clamp, so those two scores
are not clamped to the interval [0,1]. -/
theorem scorer_clamp_counterexample :
    (score_context_items oneProjectData (chars "worked angular")).any
      (fun i => decide ((qc 1 1).lt i.relevance_score) && decide ((qc 1 1).lt i.project_score)) = true := by
  decide

/-- Witness for C1 (amended) at the first item of a concrete scorer run. -/
theorem scorer_score_bounds_witness :
    (qc 0 1).le ((score_context_items oneProjectData (chars "worked angular")).headI).relevance_score ∧
      (qc 0 1).le ((score_context_items oneProjectData (chars "worked angular")).headI).project_score ∧
      (qc 0 1).le ((score_context_items oneProjectData (chars "worked angular")).headI).technical_score ∧
      ((score_context_items oneProjectData (chars "worked angular")).headI).technical_score.le (qc 1 1) :=
  scorer_score_bounds oneProjectData (chars "worked angular") _ (by decide)

/-! ## C2: monotonicity of the relevance score -/

theorem qadd_le_qadd_right {x y c : Frac} (hx : x.Pos) (hy : y.Pos) (hc : c.Pos)
    (h : x.le y) : (qadd x c).le (qadd y c) := by
  unfold Frac.le Frac.Pos qadd at *
  simp only
  nlinarith [mul_le_mul_of_nonneg_right h (mul_nonneg (le_of_lt hc) (le_of_lt hc)),
    mul_pos hx hc, mul_pos hy hc]

theorem qmul_le_qmul_right {x y c : Frac} (hx : x.Pos) (hy : y.Pos) (hc : c.Nonneg)
    (h : x.le y) : (qmul x c).le (qmul y c) := by
  unfold Frac.le Frac.Pos Frac.Nonneg qmul at *
  simp only
  nlinarith [mul_le_mul_of_nonneg_right h (mul_nonneg hc.1 (le_of_lt hc.2))]

/-- Monotonicity of the final-score shape of `_calculate_relevance_score` in
the word score, with the technical score and quality boost held fixed. -/
theorem relevance_shape_mono {ws ws' ts b : Frac}
    (hws : ws.Nonneg) (hws' : ws'.Nonneg) (hts : ts.Nonneg) (hb : b.Nonneg)
    (h : ws.le ws') :
    (qmin (qadd (qadd (qadd (qmul ws (qc 4 10)) (qmul ts (qc 5 10))) b) (qc 1 10)) (qc 1 1)).le
      (qmin (qadd (qadd (qadd (qmul ws' (qc 4 10)) (qmul ts (qc 5 10))) b) (qc 1 10)) (qc 1 1)) := by
  have hws4 : (qmul ws (qc 4 10)).Nonneg := qmul_nonneg hws (by decide)
  have hws4' : (qmul ws' (qc 4 10)).Nonneg := qmul_nonneg hws' (by decide)
  have hts5 : (qmul ts (qc 5 10)).Nonneg := qmul_nonneg hts (by decide)
  have h1 : (qmul ws (qc 4 10)).le (qmul ws' (qc 4 10)) :=
    qmul_le_qmul_right hws.pos hws'.pos (by decide) h
  have h2 : (qadd (qmul ws (qc 4 10)) (qmul ts (qc 5 10))).le
      (qadd (qmul ws' (qc 4 10)) (qmul ts (qc 5 10))) :=
    qadd_le_qadd_right hws4.pos hws4'.pos hts5.pos h1
  have h3 : (qadd (qadd (qmul ws (qc 4 10)) (qmul ts (qc 5 10))) b).le
      (qadd (qadd (qmul ws' (qc 4 10)) (qmul ts (qc 5 10))) b) :=
    qadd_le_qadd_right (qadd_nonneg hws4 hts5).pos (qadd_nonneg hws4' hts5).pos hb.pos h2
  have h4 : (qadd (qadd (qadd (qmul ws (qc 4 10)) (qmul ts (qc 5 10))) b) (qc 1 10)).le
      (qadd (qadd (qadd (qmul ws' (qc 4 10)) (qmul ts (qc 5 10))) b) (qc 1 10)) :=
    qadd_le_qadd_right (qadd_nonneg (qadd_nonneg hws4 hts5) hb).pos
      (qadd_nonneg (qadd_nonneg hws4' hts5) hb).pos (by decide) h3
  exact qmin_le_qmin_left
    (qadd_nonneg (qadd_nonneg (qadd_nonneg hws4 hts5) hb) (by decide)).pos
    (qadd_nonneg (qadd_nonneg (qadd_nonneg hws4' hts5) hb) (by decide)).pos
    (by decide) h4

theorem word_score_mono {m m' n : Nat} (hm : m ≤ m') :
    ((if 0 < n then qdiv (natQ m) (natQ n) else Frac.mk 0 1)).le
      (if 0 < n then qdiv (natQ m') (natQ n) else Frac.mk 0 1) := by
  by_cases hn : 0 < n
  · simp only [hn, if_true]
    refine qdiv_le_qdiv_of_le (natQ_nonneg m) (natQ_nonneg m') (natQ_nonneg n) ?_
    unfold Frac.le natQ
    simpa using Int.ofNat_le.mpr hm
  · simp only [hn, if_false]
    exact qle_refl

/-- C2 (amended): for a fixed content string, a fixed set of technical terms
and a fixed total number of query terms, the relevance score computed by
`_calculate_relevance_score` is monotonically non-decreasing in the number of
matched query terms.  (Monotonicity under growing the query-term set fails,
because the word score divides by the number of query terms; see the
counterexample.) -/
theorem relevance_monotone_in_matched_terms (content : Str) (t q q' : List Str)
    (hlen : q.length = q'.length)
    (hmatch : interCount q (wordSet (lowerStr content)) ≤ interCount q' (wordSet (lowerStr content))) :
    (calculate_relevance_score content q t).le (calculate_relevance_score content q' t) := by
  unfold calculate_relevance_score
  rw [hlen]
  exact relevance_shape_mono
    (iteFrac_nonneg (qdiv_nonneg (natQ_nonneg _) (natQ_den_pos _)) zeroFrac_nonneg)
    (iteFrac_nonneg (qdiv_nonneg (natQ_nonneg _) (natQ_den_pos _)) zeroFrac_nonneg)
    (iteFrac_nonneg (qdiv_nonneg (natQ_nonneg _) (natQ_den_pos _)) zeroFrac_nonneg)
    (qadd_nonneg (qadd_nonneg (qadd_nonneg (iteFrac_nonneg (by decide) zeroFrac_nonneg)
      (iteFrac_nonneg (by decide) zeroFrac_nonneg)) (iteFrac_nonneg (by decide) zeroFrac_nonneg))
      (iteFrac_nonneg (by decide) zeroFrac_nonneg))
    (word_score_mono hmatch)

/-- Counterexample to C2 as stated: the content "angular" scored against the
query "angular" (query-term set a subset of that of "angular zzz", technical
terms identical) has relevance 1.0, but against the larger query "angular zzz"
only 0.8 — adding a query term strictly decreased the score, so the relevance
score is not monotonically non-decreasing under query-term-set inclusion. -/
theorem relevance_monotonicity_counterexample :
    wordSet (chars "angular") ⊆ wordSet (chars "angular zzz") ∧
      extract_technical_terms (chars "angular") = extract_technical_terms (chars "angular zzz") ∧
      ¬ (calculate_relevance_score (chars "angular") (wordSet (chars "angular"))
            (extract_technical_terms (chars "angular"))).le
          (calculate_relevance_score (chars "angular") (wordSet (chars "angular zzz"))
            (extract_technical_terms (chars "angular zzz"))) := by
  refine ⟨?_, by decide, by decide⟩
  intro a ha
  fin_cases ha <;> decide

/-- Witness for C2 (amended) at concrete inputs: a one-term query that misses
the content scores no higher than a one-term query that matches it. -/
theorem relevance_monotone_witness :
    (calculate_relevance_score (chars "angular") [chars "zzz"] [chars "angular"]).le
      (calculate_relevance_score (chars "angular") [chars "angular"] [chars "angular"]) :=
  relevance_monotone_in_matched_terms (chars "angular") [chars "angular"] [chars "zzz"]
    [chars "angular"] (by decide) (by decide)

/-! ## C3: the Angular scenario -/

set_option maxRecDepth 10000 in
set_option maxHeartbeats 2000000 in
/-- Counterexample to C3 as stated: on the spec's Angular scenario the
Progressive Context Builder does not select the "project_focused" level.  The
query "What Angular projects have I worked on?" contains "what", which
classifies it as "minimal", and `_analyze_query_requirements` upgrades a
project-detail query to "project_focused" only from the "standard" level. -/
theorem angular_scenario_counterexample :
    (build_context angularScenarioData angularScenarioQuery).context_level ≠ chars "project_focused" := by
  decide

set_option maxRecDepth 10000 in
set_option maxHeartbeats 4000000 in
/-- C3 (amended): on the spec's Angular scenario the builder selects the
"minimal" level (not "project_focused"); the selected items do include the
project item with `project_score > 0.3`; and the critical-context check
reports `has_project_context = true` but flags one missing critical category,
`technical_details` (not zero issues), because no selected item has
`technical_score` strictly above 0.3. -/
theorem angular_scenario_behaviour :
    (build_context angularScenarioData angularScenarioQuery).context_level = chars "minimal" ∧
      (build_selected_items angularScenarioData angularScenarioQuery).any
        (fun i => decide (i.source = chars "projects") && decide ((qc 3 10).lt i.project_score)) = true ∧
      (build_context angularScenarioData angularScenarioQuery).validation_result.has_project_context = true ∧
      (build_context angularScenarioData angularScenarioQuery).validation_result.missing_critical_info =
        [chars "technical_details"] := by
  refine ⟨?_, ?_, ?_, ?_⟩ <;> decide

/-! ## C10: search output truncation -/

/-- C10: every result assembled by `VectorDB.search` has a `text` field of at
most 150 characters; a stored text longer than 150 characters is returned as
its first 147 characters followed by "...", while the untruncated text remains
available through the result's metadata. -/
theorem vdb_search_truncation (metadata : List Str) (hits : List (Frac × Nat)) (k : Nat)
    (r : SearchResult) (hr : r ∈ vdb_search_results metadata hits k) :
    r.text.length ≤ 150 ∧
      r.text = (if 150 < r.metadata_text.length then r.metadata_text.take 147 ++ chars "..."
        else r.metadata_text) := by
  unfold vdb_search_results at hr
  have hr2 : r ∈ hits.filterMap (fun h =>
      if h.2 < metadata.length && decide ((qc 3 10).le h.1) then
        some { text := if 150 < (metadata.getD h.2 []).length then
                 (metadata.getD h.2 []).take 147 ++ chars "..." else metadata.getD h.2 []
               metadata_text := metadata.getD h.2 []
               score := h.1 }
      else none) := List.take_subset _ _ hr
  rcases List.mem_filterMap.mp hr2 with ⟨h, _, heq⟩
  by_cases hc : (h.2 < metadata.length && decide ((qc 3 10).le h.1)) = true
  · rw [if_pos hc] at heq
    rcases Option.some.inj heq with rfl
    by_cases hlen : 150 < (metadata.getD h.2 []).length
    · constructor
      · show (if 150 < (metadata.getD h.2 []).length then
            (metadata.getD h.2 []).take 147 ++ chars "..." else metadata.getD h.2 []).length ≤ 150
        rw [if_pos hlen]
        have h147 : 147 ≤ (metadata.getD h.2 []).length := by omega
        have h3 : (chars "...").length = 3 := rfl
        rw [List.length_append, List.length_take, h3, Nat.min_eq_left h147]
      · rfl
    · constructor
      · show (if 150 < (metadata.getD h.2 []).length then
            (metadata.getD h.2 []).take 147 ++ chars "..." else metadata.getD h.2 []).length ≤ 150
        rw [if_neg hlen]
        omega
      · rfl
  · rw [if_neg hc] at heq
    cases heq

set_option maxRecDepth 10000 in
/-- Witness for C10 on a concrete one-document index with a 160-character
stored text and a hit above the similarity threshold. -/
theorem vdb_search_truncation_witness :
    ((vdb_search_results [longStoredText] [(qc 1 1, 0)] 3).headI).text.length ≤ 150 ∧
      ((vdb_search_results [longStoredText] [(qc 1 1, 0)] 3).headI).text =
        (if 150 < ((vdb_search_results [longStoredText] [(qc 1 1, 0)] 3).headI).metadata_text.length then
          ((vdb_search_results [longStoredText] [(qc 1 1, 0)] 3).headI).metadata_text.take 147 ++ chars "..."
        else ((vdb_search_results [longStoredText] [(qc 1 1, 0)] 3).headI).metadata_text) :=
  vdb_search_truncation [longStoredText] [(qc 1 1, 0)] 3 _ (by decide)

/-! ## C9: the cache never stores or serves degraded responses -/

theorem mem_dictInsert {k : Str} {e : CacheEntry} {l : List (Str × CacheEntry)}
    {p : Str × CacheEntry} (h : p ∈ dictInsert k e l) : p = (k, e) ∨ p ∈ l := by
  induction l with
  | nil => simpa [dictInsert] using h
  | cons q rest ih =>
    unfold dictInsert at h
    by_cases hk : q.1 = k
    · rw [if_pos hk] at h
      rcases List.mem_cons.mp h with h1 | h1
      · exact Or.inl h1
      · exact Or.inr (List.mem_cons_of_mem q h1)
    · rw [if_neg hk] at h
      rcases List.mem_cons.mp h with h1 | h1
      · exact Or.inr (h1 ▸ List.mem_cons_self q rest)
      · rcases ih h1 with h2 | h2
        · exact Or.inl h2
        · exact Or.inr (List.mem_cons_of_mem q h2)

theorem mem_cleanup_cache {now : Int} {c : ResponseCache} {p : Str × CacheEntry}
    (h : p ∈ (cleanup_cache now c).cache) : p ∈ c.cache := by
  unfold cleanup_cache at h
  simp only at h
  split at h
  · exact List.mem_of_mem_filter (List.mem_of_mem_filter h)
  · exact List.mem_of_mem_filter h

theorem cache_response_preserves_good {q t r f : Str} {now : Int} {c : ResponseCache}
    (hc : cacheEntriesGood c) : cacheEntriesGood (cache_response q t r f now c) := by
  unfold cache_response
  by_cases h1 : (!is_cacheable q t) = true
  · rw [if_pos h1]
    exact hc
  · rw [if_neg h1]
    by_cases h2 : degradedResponse r = true
    · rw [if_pos h2]
      exact hc
    · rw [if_neg h2]
      intro p hp
      have hp2 := mem_cleanup_cache hp
      rcases mem_dictInsert hp2 with h3 | h3
      · subst h3
        simpa using h2
      · exact hc p h3

theorem get_preserves_good {q t f : Str} {now : Int} {c : ResponseCache}
    (hc : cacheEntriesGood c) : cacheEntriesGood (get_cached_response q t f now c).2 := by
  unfold get_cached_response
  by_cases h1 : (!is_cacheable q t) = true
  · rw [if_pos h1]
    exact hc
  · rw [if_neg h1]
    cases hfind : lookupKey (generate_cache_key q t f) c.cache with
    | none =>
      simp only [hfind]
      exact hc
    | some entry =>
      simp only [hfind]
      by_cases h2 : (!decide (now - entry.timestamp < c.cache_ttl)) = true
      · rw [if_pos h2]
        intro p hp
        exact hc p (List.mem_of_mem_filter hp)
      · rw [if_neg h2]
        intro p hp
        simp only at hp
        rcases List.mem_map.mp hp with ⟨p0, hp0, heq⟩
        have hresp : p.2.response = p0.2.response := by
          by_cases hk : p0.1 = generate_cache_key q t f
          · rw [if_pos hk] at heq
            rw [← heq]
          · rw [if_neg hk] at heq
            rw [← heq]
        rw [hresp]
        exact hc p0 hp0

theorem applyCacheOp_preserves_good {c : ResponseCache} (hc : cacheEntriesGood c)
    (op : CacheOp) : cacheEntriesGood (applyCacheOp c op) := by
  cases op with
  | put q t r f now => exact cache_response_preserves_good hc
  | lookup q t f now => exact get_preserves_good hc
  | invalidate => intro p hp; cases hp

theorem runCacheOps_foldl_good (ops : List CacheOp) (c : ResponseCache)
    (hc : cacheEntriesGood c) : cacheEntriesGood (ops.foldl applyCacheOp c) := by
  induction ops generalizing c with
  | nil => exact hc
  | cons op rest ih =>
    simp only [List.foldl_cons]
    exact ih _ (applyCacheOp_preserves_good hc op)

theorem runCacheOps_good (ops : List CacheOp) : cacheEntriesGood (runCacheOps ops) :=
  runCacheOps_foldl_good ops initCache (fun p hp => absurd hp (List.not_mem_nil p))

theorem get_some_mem {q t f : Str} {now : Int} {c : ResponseCache} {r : Str}
    (h : (get_cached_response q t f now c).1 = some r) :
    ∃ p ∈ c.cache, p.2.response = r := by
  unfold get_cached_response at h
  by_cases h1 : (!is_cacheable q t) = true
  · rw [if_pos h1] at h
    cases h
  · rw [if_neg h1] at h
    cases hfind : lookupKey (generate_cache_key q t f) c.cache with
    | none =>
      simp only [hfind] at h
      cases h
    | some entry =>
      simp only [hfind] at h
      by_cases h2 : (!decide (now - entry.timestamp < c.cache_ttl)) = true
      · rw [if_pos h2] at h
        cases h
      · rw [if_neg h2] at h
        simp only [Option.some.injEq] at h
        unfold lookupKey at hfind
        cases hfind2 : c.cache.find? (fun p => decide (p.1 = generate_cache_key q t f)) with
        | none =>
          rw [hfind2] at hfind
          cases hfind
        | some pr =>
          rw [hfind2] at hfind
          simp only [Option.map_some'] at hfind
          refine ⟨pr, List.mem_of_find?_eq_some hfind2, ?_⟩
          rw [Option.some.inj hfind]
          exact h

/-- C9 (implicit cache content invariant): starting from a fresh cache, after
any sequence of cache operations every stored entry holds a response whose
stripped length is at least 20, whose lowercase text does not contain "error"
and which does not start with "sorry"; consequently `get_cached_response`
never returns such a degraded response. -/
theorem cache_never_serves_degraded (ops : List CacheOp) (q t f r : Str) (now : Int)
    (h : (get_cached_response q t f now (runCacheOps ops)).1 = some r) :
    20 ≤ (pyStrip r).length ∧ hasSubstr (chars "error") (lowerStr r) = false ∧
      (chars "sorry").isPrefixOf (lowerStr r) = false := by
  obtain ⟨p, hp, hresp⟩ := get_some_mem h
  have hgood := runCacheOps_good ops p hp
  rw [hresp] at hgood
  unfold degradedResponse at hgood
  simp only [Bool.or_eq_false_iff, decide_eq_false_iff_not, Nat.not_lt] at hgood
  exact ⟨hgood.1.1, hgood.1.2, hgood.2⟩

set_option maxRecDepth 10000 in
/-- Witness for C9: a stored healthy response is returned and satisfies the
content invariant. -/
theorem cache_never_serves_degraded_witness :
    20 ≤ (pyStrip (chars "You worked on an Angular dashboard at Acme.")).length ∧
      hasSubstr (chars "error") (lowerStr (chars "You worked on an Angular dashboard at Acme.")) = false ∧
      (chars "sorry").isPrefixOf (lowerStr (chars "You worked on an Angular dashboard at Acme.")) = false :=
  cache_never_serves_degraded
    [CacheOp.put (chars "What projects have I worked on?") (chars "general_question")
      (chars "You worked on an Angular dashboard at Acme.") [] 0]
    (chars "What projects have I worked on?") (chars "general_question") []
    (chars "You worked on an Angular dashboard at Acme.") 0 (by decide)

/-! ## C4: cache round trip -/

theorem lookupKey_eq_none_forall {k : Str} {l : List (Str × CacheEntry)}
    (h : lookupKey k l = none) : ∀ p ∈ l, ¬ p.1 = k := by
  intro p hp
  unfold lookupKey at h
  rcases Option.map_eq_none'.mp h with hfind
  have := List.find?_eq_none.mp hfind p hp
  simpa using this

theorem lookup_append_singleton {k : Str} {e : CacheEntry} {l : List (Str × CacheEntry)}
    (h : ∀ p ∈ l, ¬ p.1 = k) : lookupKey k (l ++ [(k, e)]) = some e := by
  induction l with
  | nil => simp [lookupKey, List.find?]
  | cons p rest ih =>
    have hp : ¬ p.1 = k := h p (List.mem_cons_self p rest)
    unfold lookupKey at ih ⊢
    simp only [List.cons_append, List.find?]
    simp only [decide_eq_false hp, Bool.false_eq_true]
    exact ih (fun q hq => h q (List.mem_cons_of_mem p hq))

theorem dictInsert_of_fresh {k : Str} {e : CacheEntry} {l : List (Str × CacheEntry)}
    (h : ∀ p ∈ l, ¬ p.1 = k) : dictInsert k e l = l ++ [(k, e)] := by
  induction l with
  | nil => rfl
  | cons p rest ih =>
    unfold dictInsert
    have hp : ¬ p.1 = k := h p (List.mem_cons_self p rest)
    rw [if_neg hp]
    simp only [List.cons_append, List.cons.injEq, true_and]
    exact ih (fun q hq => h q (List.mem_cons_of_mem p hq))

theorem lookup_dictInsert {k : Str} {e : CacheEntry} (l : List (Str × CacheEntry)) :
    lookupKey k (dictInsert k e l) = some e := by
  induction l with
  | nil => simp [dictInsert, lookupKey, List.find?]
  | cons p rest ih =>
    unfold dictInsert
    by_cases hp : p.1 = k
    · rw [if_pos hp]
      simp [lookupKey, List.find?]
    · rw [if_neg hp]
      unfold lookupKey at ih ⊢
      simp only [List.find?]
      simp only [decide_eq_false hp, Bool.false_eq_true]
      exact ih

theorem dictInsert_length_of_mem {k : Str} {e e0 : CacheEntry} {l : List (Str × CacheEntry)}
    (h : lookupKey k l = some e0) : (dictInsert k e l).length = l.length := by
  induction l with
  | nil => cases h
  | cons p rest ih =>
    unfold dictInsert
    by_cases hp : p.1 = k
    · rw [if_pos hp]
      simp
    · rw [if_neg hp]
      unfold lookupKey at h
      simp only [List.find?, decide_eq_false hp, Bool.false_eq_true] at h
      simp only [List.length_cons]
      exact congrArg (· + 1) (ih h)

theorem lookup_filter {f : Str × CacheEntry → Bool} {k : Str} {v : CacheEntry}
    {l : List (Str × CacheEntry)} (h : lookupKey k l = some v)
    (hv : ∀ p ∈ l, p.1 = k → p.2 = v → f p = true) :
    lookupKey k (l.filter f) = some v := by
  induction l with
  | nil => cases h
  | cons p rest ih =>
    unfold lookupKey at h ⊢
    by_cases hp : p.1 = k
    · simp only [List.find?, decide_eq_true hp] at h
      have hval : p.2 = v := by simpa using h
      have hf : f p = true := hv p (List.mem_cons_self p rest) hp hval
      simp only [List.filter_cons, hf, if_true, List.find?, decide_eq_true hp]
      simpa using hval
    · simp only [List.find?, decide_eq_false hp, Bool.false_eq_true] at h
      have ih2 := ih h (fun q hq => hv q (List.mem_cons_of_mem p hq))
      by_cases hf : f p = true
      · simp only [List.filter_cons, hf, if_true, List.find?, decide_eq_false hp, Bool.false_eq_true]
        exact ih2
      · simp only [List.filter_cons, hf, if_false]
        exact ih2

theorem cache_response_ttl (q t r f : Str) (now : Int) (c : ResponseCache) :
    (cache_response q t r f now c).cache_ttl = c.cache_ttl := by
  unfold cache_response cleanup_cache
  by_cases h1 : (!is_cacheable q t) = true
  · rw [if_pos h1]
  · rw [if_neg h1]
    by_cases h2 : degradedResponse r = true
    · rw [if_pos h2]
    · rw [if_neg h2]

theorem lookup_cleanup_insert {key : Str} {e : CacheEntry} {c : ResponseCache} {now : Int}
    (hts : ∀ p ∈ c.cache, p.2.timestamp ≤ now) (hlen : c.cache.length ≤ c.max_cache_size)
    (hmax : 1 ≤ c.max_cache_size) (httl : 0 < c.cache_ttl) (hets : e.timestamp = now) :
    lookupKey key (cleanup_cache now { c with cache := dictInsert key e c.cache }).cache = some e := by
  unfold cleanup_cache
  dsimp only
  cases hlook : lookupKey key c.cache with
  | none =>
    have hfresh := lookupKey_eq_none_forall hlook
    have hins : dictInsert key e c.cache = c.cache ++ [(key, e)] := dictInsert_of_fresh hfresh
    rw [hins, List.filter_append]
    have hekeep : List.filter (fun p : Str × CacheEntry => decide (now - p.2.timestamp ≤ c.cache_ttl))
        [(key, e)] = [(key, e)] := by
      simp only [List.filter_cons, List.filter_nil]
      rw [if_pos]
      rw [hets]
      exact decide_eq_true (by omega)
    rw [hekeep]
    have hsubA : ∀ p ∈ List.filter (fun p : Str × CacheEntry =>
        decide (now - p.2.timestamp ≤ c.cache_ttl)) c.cache, ¬ p.1 = key :=
      fun p hp => hfresh p (List.mem_of_mem_filter hp)
    split
    · rename_i hcond
      have hkeepA : ∀ y ∈ List.filter (fun p : Str × CacheEntry =>
          decide (now - p.2.timestamp ≤ c.cache_ttl)) c.cache, keepByTsAsc y (key, e) = true := by
        intro y hy
        unfold keepByTsAsc
        refine decide_eq_true ?_
        rw [hets]
        exact hts y (List.mem_of_mem_filter hy)
      rw [show sortByTs (List.filter (fun p : Str × CacheEntry =>
            decide (now - p.2.timestamp ≤ c.cache_ttl)) c.cache ++ [(key, e)]) =
          sortByTs (List.filter (fun p : Str × CacheEntry =>
            decide (now - p.2.timestamp ≤ c.cache_ttl)) c.cache) ++ [(key, e)] from
        sortStable_append_last hkeepA]
      have hnle : (List.filter (fun p : Str × CacheEntry =>
            decide (now - p.2.timestamp ≤ c.cache_ttl)) c.cache ++ [(key, e)]).length -
            c.max_cache_size ≤
          (sortByTs (List.filter (fun p : Str × CacheEntry =>
            decide (now - p.2.timestamp ≤ c.cache_ttl)) c.cache)).length := by
        unfold sortByTs
        rw [length_sortStable, List.length_append]
        simp only [List.length_singleton]
        omega
      rw [List.take_append_of_le_length hnle]
      rw [List.filter_append]
      have hknot : ¬ key ∈
          ((sortByTs (List.filter (fun p : Str × CacheEntry =>
            decide (now - p.2.timestamp ≤ c.cache_ttl)) c.cache)).take
            ((List.filter (fun p : Str × CacheEntry =>
              decide (now - p.2.timestamp ≤ c.cache_ttl)) c.cache ++ [(key, e)]).length -
              c.max_cache_size)).map (·.1) := by
        intro hmem
        rcases List.mem_map.mp hmem with ⟨p, hp, hpk⟩
        have hp2 := List.take_subset _ _ hp
        have hp3 : p ∈ c.cache := List.mem_of_mem_filter (mem_of_mem_sortStable hp2)
        exact hfresh p hp3 hpk
      have hevict : List.filter (fun p : Str × CacheEntry => !decide (p.1 ∈
          ((sortByTs (List.filter (fun p : Str × CacheEntry =>
            decide (now - p.2.timestamp ≤ c.cache_ttl)) c.cache)).take
            ((List.filter (fun p : Str × CacheEntry =>
              decide (now - p.2.timestamp ≤ c.cache_ttl)) c.cache ++ [(key, e)]).length -
              c.max_cache_size)).map (·.1))) [(key, e)] = [(key, e)] := by
        simp only [List.filter_cons, List.filter_nil]
        rw [if_pos]
        simp only [Bool.not_eq_true']
        exact decide_eq_false hknot
      rw [hevict]
      exact lookup_append_singleton (fun p hp => hsubA p (List.mem_of_mem_filter hp))
    · exact lookup_append_singleton hsubA
  | some e0 =>
    have hli := lookup_dictInsert (k := key) (e := e) c.cache
    have hlifilter : lookupKey key ((dictInsert key e c.cache).filter
        (fun p : Str × CacheEntry => decide (now - p.2.timestamp ≤ c.cache_ttl))) = some e := by
      refine lookup_filter hli ?_
      intro p _ _ hpv
      rw [hpv, hets]
      exact decide_eq_true (by omega)
    have hlen2 : ((dictInsert key e c.cache).filter
        (fun p : Str × CacheEntry => decide (now - p.2.timestamp ≤ c.cache_ttl))).length ≤
        c.max_cache_size := by
      refine le_trans (List.length_filter_le _ _) ?_
      rw [dictInsert_length_of_mem hlook]
      exact hlen
    rw [if_neg (Nat.not_lt.mpr hlen2)]
    exact hlifilter

theorem lookup_after_cache_response {q t r f : Str} {now : Int} {c : ResponseCache}
    (hcc : is_cacheable q t = true) (hgood : degradedResponse r = false)
    (hwf : CacheWF now c) :
    lookupKey (generate_cache_key q t f) (cache_response q t r f now c).cache =
      some { response := r, query_type := t, timestamp := now, hit_count := 0 } := by
  obtain ⟨hts, hlen, hmax, httl⟩ := hwf
  unfold cache_response
  rw [if_neg (by simp [hcc])]
  rw [if_neg (by simp [hgood])]
  exact lookup_cleanup_insert hts hlen hmax httl rfl

/-- C4 (amended): the cache round trip holds for cacheable inputs — when the
question/query-type pair passes `_is_cacheable` and the response passes the
quality guard of `cache_response`, then from any well-formed cache state,
`cache_response(q,t,r,f)` followed by `get_cached_response(q,t,f)` returns `r`
as long as the TTL has not elapsed, and returns `None` once the TTL has
elapsed.  (Unconditionally over all questions, types and responses the claim
fails: see the counterexample.) -/
theorem cache_round_trip (q t r f : Str) (now tLater : Int) (c : ResponseCache)
    (hcc : is_cacheable q t = true) (hgood : degradedResponse r = false)
    (hwf : CacheWF now c) :
    (tLater - now < c.cache_ttl →
      (get_cached_response q t f tLater (cache_response q t r f now c)).1 = some r) ∧
    (c.cache_ttl ≤ tLater - now →
      (get_cached_response q t f tLater (cache_response q t r f now c)).1 = none) := by
  have hl := lookup_after_cache_response (f := f) hcc hgood hwf
  have httl := cache_response_ttl q t r f now c
  constructor
  · intro hfresh
    unfold get_cached_response
    rw [if_neg (by simp [hcc])]
    simp only [hl]
    have hcond : (!decide (tLater -
        (CacheEntry.mk r t now 0).timestamp < (cache_response q t r f now c).cache_ttl)) = false := by
      rw [Bool.not_eq_false']
      refine decide_eq_true ?_
      rw [httl]
      simpa using hfresh
    simp only [hcond, Bool.false_eq_true, if_false]
  · intro hstale
    unfold get_cached_response
    rw [if_neg (by simp [hcc])]
    simp only [hl]
    have hcond : (!decide (tLater -
        (CacheEntry.mk r t now 0).timestamp < (cache_response q t r f now c).cache_ttl)) = true := by
      rw [Bool.not_eq_true']
      refine decide_eq_false ?_
      rw [httl]
      simp only
      omega
    simp only [hcond, if_true]

/-- Counterexample to C4 as stated: for the question "hi" (shorter than the
10-character cacheability floor) with query type "general_question" and a
healthy response, `cache_response` stores nothing and the immediate
`get_cached_response` — well before the 24-hour TTL — returns `None`, not the
response. -/
theorem cache_round_trip_counterexample :
    (0 : Int) - 0 < initCache.cache_ttl ∧
      (get_cached_response (chars "hi") (chars "general_question") [] 0
        (cache_response (chars "hi") (chars "general_question")
          (chars "This is a perfectly fine long response text.") [] 0 initCache)).1 = none := by
  constructor
  · decide
  · decide

set_option maxRecDepth 10000 in
/-- Witness for C4 (amended) on a concrete cacheable question: the response
is returned 5 seconds after caching and gone once 24 hours have elapsed. -/
theorem cache_round_trip_witness :
    (get_cached_response (chars "What projects have I worked on?") (chars "general_question") [] 5
        (cache_response (chars "What projects have I worked on?") (chars "general_question")
          (chars "A fine Angular dashboard description.") [] 0 initCache)).1 =
      some (chars "A fine Angular dashboard description.") ∧
    (get_cached_response (chars "What projects have I worked on?") (chars "general_question") [] 86400
        (cache_response (chars "What projects have I worked on?") (chars "general_question")
          (chars "A fine Angular dashboard description.") [] 0 initCache)).1 = none :=
  ⟨(cache_round_trip (chars "What projects have I worked on?") (chars "general_question")
      (chars "A fine Angular dashboard description.") [] 0 5 initCache
      (by decide) (by decide) ⟨by decide, by decide, by decide, by decide⟩).1 (by decide),
   (cache_round_trip (chars "What projects have I worked on?") (chars "general_question")
      (chars "A fine Angular dashboard description.") [] 0 86400 initCache
      (by decide) (by decide) ⟨by decide, by decide, by decide, by decide⟩).2 (by decide)⟩
